/-
Verification of the hold & booking concurrency engine of the ticket-booking
repository (packages/backend/src/services/holdService.ts and
bookingService.ts, with the shared constants from packages/shared/src/index.ts
and the hold configuration from the backend config).

The SQLite tables are modelled as follows:
  * ticket_inventory  : a function from (concertId, tier) to an optional
                        inventory entry (total_quantity, sold_quantity);
  * holds             : a list of hold rows in rowid (insertion) order;
  * bookings          : a list of bookings, each carrying its booking_items.
Timestamps are natural numbers (milliseconds); the single instant `now` used
by a service call is passed explicitly.  Random uuids are modelled by a
fresh-id counter in the state.  The simulated payment outcome
(Math.random() > PAYMENT_FAILURE_RATE) is passed as an explicit boolean.
`withTransaction` makes each exported service call one atomic step, so each
operation is a pure function from state (and inputs) to state and result.
-/
import Mathlib

/-- Ticket tiers, from the shared package. -/
inductive TicketTier
  | VIP
  | FRONT_ROW
  | GA
deriving DecidableEq, Repr

/-- Per-tier catalog information (the price in cents is all the engine uses). -/
structure TicketTierInfo where
  price : Nat
deriving DecidableEq, Repr

/-- TICKET_TIERS from packages/shared/src/index.ts (prices in cents). -/
def TICKET_TIERS : TicketTier → TicketTierInfo
  | .VIP => ⟨10000⟩
  | .FRONT_ROW => ⟨5000⟩
  | .GA => ⟨1000⟩

/-- LIMITS.MAX_TICKETS_PER_TIER. -/
def MAX_TICKETS_PER_TIER : Nat := 10

/-- LIMITS.MAX_TICKETS_PER_ORDER. -/
def MAX_TICKETS_PER_ORDER : Nat := 20

/-- Hold timing configuration (shared HoldConfig shape). -/
structure HoldConfig where
  holdDurationMs : Nat
  inactivityTimeoutMs : Nat
  gracePeriodMs : Nat
  hardCapMs : Nat
  warningBeforeExpiryMs : Nat
  heartbeatIntervalMs : Nat
deriving DecidableEq, Repr

/-- HOLD_CONFIG from the backend config: 10 min hold, 3 min inactivity,
60 s grace, 15 min hard cap, 60 s warning, 30 s heartbeat. -/
def HOLD_CONFIG : HoldConfig :=
  ⟨10 * 60 * 1000, 3 * 60 * 1000, 60 * 1000, 15 * 60 * 1000, 60 * 1000, 30 * 1000⟩

/-- A row of the holds table. -/
structure Hold where
  id : Nat
  sessionId : String
  concertId : String
  tier : TicketTier
  quantity : Nat
  createdAt : Nat
  expiresAt : Nat
  lastActivityAt : Nat
deriving DecidableEq, Repr

/-- A (tier, quantity) selection, as sent to the hold and booking services. -/
structure TicketSelection where
  tier : TicketTier
  quantity : Nat
deriving DecidableEq, Repr

/-- A row of the ticket_inventory table (concert and tier are the key). -/
structure InvEntry where
  total : Nat
  sold : Nat
deriving DecidableEq, Repr

/-- Booking status values. -/
inductive BookingStatus
  | PENDING
  | CONFIRMED
  | FAILED
  | CANCELLED
deriving DecidableEq, Repr

/-- A booking_items row (without the surrogate key). -/
structure BookingItem where
  tier : TicketTier
  quantity : Nat
  pricePerTicket : Nat
  subtotal : Nat
deriving DecidableEq, Repr

/-- A bookings row together with its booking_items. -/
structure Booking where
  id : Nat
  sessionId : String
  concertId : String
  totalAmount : Nat
  status : BookingStatus
  createdAt : Nat
  confirmedAt : Option Nat
  items : List BookingItem
deriving DecidableEq, Repr

/-- The database state seen by the engine. -/
structure St where
  inv : String → TicketTier → Option InvEntry
  holds : List Hold
  bookings : List Booking
  nextId : Nat

/-- The WHERE clause `session_id = ? AND concert_id = ? AND tier = ?`
used by createOrUpdateHolds to look up an existing hold (note: it has NO
expiry filter in the source). -/
def holdMatches (sess c : String) (t : TicketTier) (h : Hold) : Bool :=
  decide (h.sessionId = sess ∧ h.concertId = c ∧ h.tier = t)

/-- The WHERE clause `session_id = ? AND concert_id = ?`. -/
def holdInSession (sess c : String) (h : Hold) : Bool :=
  decide (h.sessionId = sess ∧ h.concertId = c)

/-- The WHERE clause of the held-quantity SUM:
`concert_id = ? AND tier = ? AND expires_at > datetime('now')`. -/
def holdCounts (c : String) (t : TicketTier) (now : Nat) (h : Hold) : Bool :=
  decide (h.concertId = c ∧ h.tier = t ∧ now < h.expiresAt)

/-- `SELECT COALESCE(SUM(quantity), 0) FROM holds WHERE concert_id = ?
AND tier = ? AND expires_at > datetime('now')`. -/
def heldSum (l : List Hold) (c : String) (t : TicketTier) (now : Nat) : Nat :=
  ((l.filter (holdCounts c t now)).map (fun h => h.quantity)).sum

/-- The contribution of one hold row to the held-quantity sum. -/
def holdContrib (c : String) (t : TicketTier) (now : Nat) (h : Hold) : Nat :=
  if h.concertId = c ∧ h.tier = t ∧ now < h.expiresAt then h.quantity else 0

/-- getAvailableQuantity: total - sold - held for a (concert, tier), 0 when
there is no inventory row.  The value may be negative in corrupt states, so
it is an integer, as in the JS source. -/
def getAvailableQuantity (st : St) (now : Nat) (c : String) (t : TicketTier) : Int :=
  match st.inv c t with
  | none => 0
  | some e => (e.total : Int) - e.sold - heldSum st.holds c t now

/-- getHoldsForConcert: the session's non-expired holds for a concert. -/
def getHoldsForConcert (st : St) (now : Nat) (sess c : String) : List Hold :=
  st.holds.filter (fun h => decide (h.sessionId = sess ∧ h.concertId = c ∧ now < h.expiresAt))

/-- The quantity of the session's existing hold for a tier (0 if none),
`existingHold?.quantity ?? 0` in the source. -/
def currentHeldQty (sess c : String) (st : St) (t : TicketTier) : Nat :=
  ((st.holds.find? (holdMatches sess c t)).map (fun h => h.quantity)).getD 0

/-- `UPDATE holds SET quantity = ?, expires_at = ?, last_activity_at = ?`. -/
def refreshHold (q exp now : Nat) (h : Hold) : Hold :=
  { h with quantity := q, expiresAt := exp, lastActivityAt := now }

/-- `additionalNeeded`: the requested quantity minus the quantity of the
session's existing hold for the tier. -/
def holdDelta (sess c : String) (st : St) (s : TicketSelection) : Int :=
  (s.quantity : Int) - currentHeldQty sess c st s.tier

/-- The guard under which the loop rejects one selection:
`additionalNeeded > 0 && additionalNeeded > available`. -/
abbrev stepSkip (sess c : String) (now : Nat) (st : St) (s : TicketSelection) : Prop :=
  0 < holdDelta sess c st s ∧ getAvailableQuantity st now c s.tier < holdDelta sess c st s

/-- One iteration of the createOrUpdateHolds selection loop: returns the new
state, the hold pushed onto holdResults (if any) and the selection pushed
onto unavailable (if any). -/
def stepSel (sess c : String) (now exp : Nat) (st : St) (s : TicketSelection) :
    St × Option Hold × Option TicketSelection :=
  if s.quantity = 0 then
    ({ st with holds := st.holds.filter (fun h => !holdMatches sess c s.tier h) }, none, none)
  else
    if stepSkip sess c now st s then
      (st, none, some s)
    else
      match st.holds.find? (holdMatches sess c s.tier) with
      | some ex =>
        let upd := refreshHold s.quantity exp now ex
        ({ st with holds := st.holds.map (fun h => if h.id = ex.id then upd else h) },
          some upd, none)
      | none =>
        let newHold : Hold := ⟨st.nextId, sess, c, s.tier, s.quantity, now, exp, now⟩
        ({ st with holds := st.holds ++ [newHold], nextId := st.nextId + 1 },
          some newHold, none)

/-- The createOrUpdateHolds selection loop, accumulating holdResults and
unavailable in encounter order. -/
def processSelections (sess c : String) (now exp : Nat) :
    St → List TicketSelection → St × List Hold × List TicketSelection
  | st, [] => (st, [], [])
  | st, s :: rest =>
    let r1 := stepSel sess c now exp st s
    let r2 := processSelections sess c now exp r1.1 rest
    (r2.1, r1.2.1.toList ++ r2.2.1, r1.2.2.toList ++ r2.2.2)

/-- Result shape of createOrUpdateHolds (messages dropped; a missing
unavailable field is the empty list). -/
structure HoldsResult where
  success : Bool
  holds : List Hold
  unavailable : List TicketSelection
deriving DecidableEq, Repr

/-- createOrUpdateHolds: cap validation with no side effects, then the
atomic per-selection loop; success iff no selection was unavailable. -/
def createOrUpdateHolds (st : St) (now : Nat) (sess c : String)
    (sels : List TicketSelection) : St × HoldsResult :=
  if sels.any (fun s => decide (MAX_TICKETS_PER_TIER < s.quantity)) then
    (st, ⟨false, [], []⟩)
  else if MAX_TICKETS_PER_ORDER < (sels.map (fun s => s.quantity)).sum then
    (st, ⟨false, [], []⟩)
  else
    let r := processSelections sess c now (now + HOLD_CONFIG.holdDurationMs) st sels
    (r.1, ⟨r.2.2.isEmpty, r.2.1, r.2.2⟩)

/-- Result shape of processHeartbeat (messages dropped). -/
structure HeartbeatResult where
  success : Bool
  holds : List Hold
  expiresAt : Option Nat
deriving DecidableEq, Repr

/-- The created_at of the oldest hold, computed as the source's reduce
(strictly-smaller-wins, first on ties). -/
def oldestCreatedAt : List Hold → Nat
  | [] => 0
  | h :: t => t.foldl (fun m x => if x.createdAt < m then x.createdAt else m) h.createdAt

/-- The tail of processHeartbeat once a base expiry is chosen: clamp to the
hard cap, update every hold row of the (session, concert) pair — with no
expiry filter — and re-read them. -/
def hbFinish (st : St) (now : Nat) (sess c : String) (active : List Hold)
    (base : Nat) : St × HeartbeatResult :=
  let capEnd := oldestCreatedAt active + HOLD_CONFIG.hardCapMs
  let newExp := if capEnd < base then capEnd else base
  let holds' := st.holds.map (fun h =>
    if holdInSession sess c h then { h with expiresAt := newExp, lastActivityAt := now } else h)
  ({ st with holds := holds' },
    ⟨true, holds'.filter (holdInSession sess c), some newExp⟩)

/-- processHeartbeat: find the session's active holds; tab hidden gives a
grace-period expiry, stale activity leaves the holds untouched, an active
user gets a full refresh; the new expiry is clamped to the oldest active
hold's created_at + hard cap. -/
def processHeartbeat (st : St) (now : Nat) (sess c : String) (la : Nat)
    (vis : Bool) : St × HeartbeatResult :=
  match getHoldsForConcert st now sess c with
  | [] => (st, ⟨false, [], none⟩)
  | a :: rest =>
    if !vis then
      hbFinish st now sess c (a :: rest) (now + HOLD_CONFIG.gracePeriodMs)
    else if (HOLD_CONFIG.inactivityTimeoutMs : Int) < (now : Int) - la then
      (st, ⟨true, a :: rest, some a.expiresAt⟩)
    else
      hbFinish st now sess c (a :: rest) (now + HOLD_CONFIG.holdDurationMs)

/-- releaseHolds: delete all holds of the (session, concert) pair. -/
def releaseHolds (st : St) (sess c : String) : St :=
  { st with holds := st.holds.filter (fun h => !holdInSession sess c h) }

/-- releaseAllHolds: delete all of the session's holds. -/
def releaseAllHolds (st : St) (sess : String) : St :=
  { st with holds := st.holds.filter (fun h => !decide (h.sessionId = sess)) }

/-- cleanupExpiredHolds: delete every hold with expires_at <= now and
return the number of rows removed. -/
def cleanupExpiredHolds (st : St) (now : Nat) : St × Nat :=
  ({ st with holds := st.holds.filter (fun h => decide (now < h.expiresAt)) },
    (st.holds.filter (fun h => !decide (now < h.expiresAt))).length)

/-- The JS Map built from the session's active holds keyed by tier: a later
entry overwrites an earlier one, so lookup returns the last match. -/
def lookupHoldByTier (st : St) (now : Nat) (sess c : String) (t : TicketTier) : Option Hold :=
  (getHoldsForConcert st now sess c).reverse.find? (fun h => decide (h.tier = t))

/-- The first processBooking loop: some non-zero selection has no matching
active hold, or the hold is for fewer tickets than requested. -/
def bookingHoldCheckFails (st : St) (now : Nat) (sess c : String)
    (sels : List TicketSelection) : Bool :=
  sels.any (fun s => !decide (s.quantity = 0) &&
    match lookupHoldByTier st now sess c s.tier with
    | none => true
    | some h => decide (h.quantity < s.quantity))

/-- The second processBooking loop: raw inventory (total - sold) is short of
some non-zero selection, or the inventory row is missing. -/
def bookingInvCheckFails (st : St) (c : String) (sels : List TicketSelection) : Bool :=
  sels.any (fun s => !decide (s.quantity = 0) &&
    match st.inv c s.tier with
    | none => true
    | some e => decide ((e.total : Int) - e.sold < (s.quantity : Int)))

/-- The booking_items built from the non-zero selections, priced from
TICKET_TIERS. -/
def bookingItemsOf (sels : List TicketSelection) : List BookingItem :=
  sels.filterMap (fun s =>
    if s.quantity = 0 then none
    else some ⟨s.tier, s.quantity, (TICKET_TIERS s.tier).price,
      (TICKET_TIERS s.tier).price * s.quantity⟩)

/-- `UPDATE ticket_inventory SET sold_quantity = sold_quantity + ?` run for
each booking item in order. -/
def soldAfter (f : String → TicketTier → Option InvEntry) (c : String)
    (items : List BookingItem) : String → TicketTier → Option InvEntry :=
  items.foldl (fun g it => fun c' t' =>
    if c' = c ∧ t' = it.tier then (g c' t').map (fun e => ⟨e.total, e.sold + it.quantity⟩)
    else g c' t') f

/-- Result shape of processBooking (messages dropped; retryAllowed is absent
on success). -/
structure BookingResult where
  success : Bool
  booking : Option Booking
  retryAllowed : Option Bool
deriving DecidableEq, Repr

/-- processBooking: hold check, then raw inventory check (both non-retryable
on failure), then the simulated payment (retryable on failure); on success
insert the CONFIRMED booking and its items, increment sold_quantity per item
and release the session's holds for the concert — all in one transaction. -/
def processBooking (st : St) (now : Nat) (sess c : String)
    (sels : List TicketSelection) (pay : Bool) : St × BookingResult :=
  if bookingHoldCheckFails st now sess c sels then
    (st, ⟨false, none, some false⟩)
  else if bookingInvCheckFails st c sels then
    (st, ⟨false, none, some false⟩)
  else if pay = false then
    (st, ⟨false, none, some true⟩)
  else
    let items := bookingItemsOf sels
    let total := (items.map (fun it => it.subtotal)).sum
    let b : Booking := ⟨st.nextId, sess, c, total, BookingStatus.CONFIRMED, now, some now, items⟩
    ({ inv := soldAfter st.inv c items,
       holds := st.holds.filter (fun h => !holdInSession sess c h),
       bookings := st.bookings ++ [b],
       nextId := st.nextId + 1 },
      ⟨true, some b, none⟩)

/-- Key of a hold row for the one-hold-per-(session, concert, tier) shape
the service maintains. -/
def holdKey (h : Hold) : String × String × TicketTier :=
  (h.sessionId, h.concertId, h.tier)

/-- Well-formed states: hold ids are distinct and below the fresh-id
counter, and there is at most one hold row per (session, concert, tier).
All of this holds for the seeded initial state (no holds) and is preserved
by every operation. -/
def WF (st : St) : Prop :=
  (st.holds.map (fun h => h.id)).Nodup
  ∧ (∀ h ∈ st.holds, h.id < st.nextId)
  ∧ (st.holds.map holdKey).Nodup

/-- How tiers of the createOrUpdateHolds loop resolve. -/
inductive SelOutcome
  | removed
  | granted
  | skipped
deriving DecidableEq, Repr

/-- The decision the createOrUpdateHolds loop takes for one selection,
expressed against a fixed state: a zero quantity removes the hold, an
increase beyond availability is skipped, anything else is granted
(upserted).  When tiers in the request are distinct, the loop's in-flight
decision for each selection coincides with this decision taken against the
state the call started from. -/
def classify (sess c : String) (now : Nat) (st : St) (s : TicketSelection) : SelOutcome :=
  if s.quantity = 0 then .removed
  else if stepSkip sess c now st s then .skipped
  else .granted

/-- Total quantity of booking items for one tier. -/
def tierQtySum (items : List BookingItem) (t : TicketTier) : Nat :=
  ((items.filter (fun it => decide (it.tier = t))).map (fun it => it.quantity)).sum

/-- A demo inventory: one concert "c" with GA 5/0, VIP 1/0, FRONT_ROW 10/3. -/
def demoInv : String → TicketTier → Option InvEntry := fun c' t =>
  if c' = "c" then
    match t with
    | .GA => some ⟨5, 0⟩
    | .VIP => some ⟨1, 0⟩
    | .FRONT_ROW => some ⟨10, 3⟩
  else none

/-- A freshly seeded state: inventory only, no holds, no bookings. -/
def demoState : St := ⟨demoInv, [], [], 0⟩

/-- Session A takes the 5 GA tickets at time 0 (holds expire at 600000). -/
def c1St1 : St := (createOrUpdateHolds demoState 0 "A" "c" [⟨TicketTier.GA, 5⟩]).1

/-- At time 600000 session A's hold has expired (but is unswept); session B
takes the 5 GA tickets. -/
def c1St2 : St := (createOrUpdateHolds c1St1 600000 "B" "c" [⟨TicketTier.GA, 5⟩]).1

/-- Session A re-submits the same selection: the existing-hold lookup has no
expiry filter, the delta is 0, so no availability check runs and A's expired
hold is revived. -/
def c1St3 : St := (createOrUpdateHolds c1St2 600000 "A" "c" [⟨TicketTier.GA, 5⟩]).1

/-- An expired hold row (expiry 10), used in concrete instantiations. -/
def expiredHoldW : Hold := ⟨0, "A", "c", TicketTier.GA, 2, 0, 10, 0⟩

/-- An active hold row (expiry 100), used in concrete instantiations. -/
def activeHoldW : Hold := ⟨1, "A", "c", TicketTier.GA, 1, 0, 100, 0⟩

/-- A state holding one expired and one active GA hold. -/
def stWExp : St := ⟨demoInv, [expiredHoldW, activeHoldW], [], 2⟩

/-- A state where session A actively holds 2 GA tickets (expiry 100). -/
def stBookW : St := ⟨demoInv, [⟨0, "A", "c", TicketTier.GA, 2, 0, 100, 0⟩], [], 1⟩

/-- A state where session A holds 2 GA tickets until time 1000000. -/
def stHBW : St := ⟨demoInv, [⟨0, "A", "c", TicketTier.GA, 2, 0, 1000000, 0⟩], [], 1⟩

/-- A state where session A has an active VIP hold and an expired (unswept)
GA hold for the same concert. -/
def stHB9W : St :=
  ⟨demoInv, [⟨0, "A", "c", TicketTier.VIP, 1, 0, 1000, 0⟩,
    ⟨1, "A", "c", TicketTier.GA, 2, 0, 50, 0⟩], [], 2⟩

/-! ### Generic list lemmas used throughout -/

theorem find?_eq_none_of {α} (p : α → Bool) (l : List α)
    (h : ∀ x ∈ l, p x = false) : l.find? p = none := by
  induction l with
  | nil => rfl
  | cons x xs ih =>
    have hx := h x (by simp)
    rw [List.find?_cons_of_neg _ (by simp [hx])]
    exact ih (fun y hy => h y (by simp [hy]))

theorem find?_prefix_fail {α} (p : α → Bool) (l1 l2 : List α)
    (h : ∀ x ∈ l1, p x = false) : (l1 ++ l2).find? p = l2.find? p := by
  induction l1 with
  | nil => rfl
  | cons x xs ih =>
    have hx := h x (by simp)
    rw [List.cons_append, List.find?_cons_of_neg _ (by simp [hx])]
    exact ih (fun y hy => h y (by simp [hy]))

theorem find?_split {α} (p : α → Bool) (l : List α) (a : α)
    (h : l.find? p = some a) :
    ∃ l1 l2, l = l1 ++ a :: l2 ∧ ∀ x ∈ l1, p x = false := by
  induction l with
  | nil => simp at h
  | cons x xs ih =>
    by_cases hx : p x = true
    · rw [List.find?_cons_of_pos _ hx] at h
      refine ⟨[], xs, ?_, by simp⟩
      rw [Option.some.inj h]
      rfl
    · have hx' : p x = false := by simpa using hx
      rw [List.find?_cons_of_neg _ (by simp [hx'])] at h
      obtain ⟨l1, l2, hl, hfail⟩ := ih h
      exact ⟨x :: l1, l2, by simp [hl], by
        intro y hy
        rcases List.mem_cons.mp hy with hy | hy
        · simpa [hy] using hx'
        · exact hfail y hy⟩

theorem find?_filter_of {α} (p q : α → Bool) (l : List α)
    (himp : ∀ x ∈ l, p x = true → q x = true) :
    (l.filter q).find? p = l.find? p := by
  induction l with
  | nil => rfl
  | cons x xs ih =>
    have ih' := ih (fun y hy => himp y (by simp [hy]))
    by_cases hq : q x = true
    · rw [List.filter_cons_of_pos hq]
      by_cases hp : p x = true
      · rw [List.find?_cons_of_pos _ hp, List.find?_cons_of_pos _ hp]
      · have hp' : p x = false := by simpa using hp
        rw [List.find?_cons_of_neg _ (by simp [hp']),
          List.find?_cons_of_neg _ (by simp [hp'])]
        exact ih'
    · have hq' : q x = false := by simpa using hq
      rw [List.filter_cons_of_neg (by simp [hq'])]
      have hp' : p x = false := by
        by_contra hc
        exact hq (himp x (by simp) (by simpa using hc))
      rw [List.find?_cons_of_neg _ (by simp [hp'])]
      exact ih'

theorem find?_map_pres {α} (f : α → α) (p : α → Bool) (l : List α)
    (hpres : ∀ x ∈ l, p (f x) = p x) (hfix : ∀ x ∈ l, p x = true → f x = x) :
    (l.map f).find? p = l.find? p := by
  induction l with
  | nil => rfl
  | cons x xs ih =>
    have ih' := ih (fun y hy => hpres y (by simp [hy])) (fun y hy => hfix y (by simp [hy]))
    by_cases hp : p x = true
    · rw [List.map_cons, List.find?_cons_of_pos _ (by rw [hpres x (by simp)]; exact hp),
        List.find?_cons_of_pos _ hp, hfix x (by simp) hp]
    · have hp' : p x = false := by simpa using hp
      rw [List.map_cons, List.find?_cons_of_neg _ (by simp [hpres x (by simp), hp']),
        List.find?_cons_of_neg _ (by simp [hp'])]
      exact ih'

theorem find?_append_single {α} (p : α → Bool) (l : List α) (a : α) :
    (l ++ [a]).find? p =
      match l.find? p with
      | some b => some b
      | none => if p a then some a else none := by
  induction l with
  | nil => by_cases hp : p a = true <;> simp [List.find?_cons, hp]
  | cons x xs ih =>
    by_cases hp : p x = true
    · rw [List.cons_append, List.find?_cons_of_pos _ hp, List.find?_cons_of_pos _ hp]
    · have hp' : p x = false := by simpa using hp
      rw [List.cons_append, List.find?_cons_of_neg _ (by simp [hp']),
        List.find?_cons_of_neg _ (by simp [hp'])]
      exact ih

theorem nodup_map_inj {α β} {f : α → β} {l : List α} (hn : (l.map f).Nodup)
    {a b : α} (ha : a ∈ l) (hb : b ∈ l) (hf : f a = f b) : a = b := by
  induction l with
  | nil => simp at ha
  | cons x xs ih =>
    rw [List.map_cons, List.nodup_cons] at hn
    rcases List.mem_cons.mp ha with ha' | ha' <;> rcases List.mem_cons.mp hb with hb' | hb'
    · rw [ha', hb']
    · exact absurd (by rw [← ha', hf]; exact List.mem_map_of_mem f hb') hn.1
    · exact absurd (by rw [← hb', ← hf]; exact List.mem_map_of_mem f ha') hn.1
    · exact ih hn.2 ha' hb'

theorem map_eq_self_of {α} (f : α → α) (l : List α) (h : ∀ x ∈ l, f x = x) :
    l.map f = l := by
  induction l with
  | nil => rfl
  | cons x xs ih =>
    rw [List.map_cons, h x (by simp), ih (fun y hy => h y (by simp [hy]))]

theorem filter_eq_self_of {α} (p : α → Bool) (l : List α) (h : ∀ x ∈ l, p x = true) :
    l.filter p = l := by
  induction l with
  | nil => rfl
  | cons x xs ih =>
    rw [List.filter_cons_of_pos (h x (by simp)), ih (fun y hy => h y (by simp [hy]))]

theorem sum_map_congr {α} (f g : α → Nat) (l : List α) (h : ∀ x ∈ l, f x = g x) :
    (l.map f).sum = (l.map g).sum := by
  induction l with
  | nil => rfl
  | cons x xs ih =>
    simp only [List.map_cons, List.sum_cons, h x (by simp),
      ih (fun y hy => h y (by simp [hy]))]

theorem length_filter_split {α} (p : α → Bool) (l : List α) :
    (l.filter (fun x => !p x)).length + (l.filter p).length = l.length := by
  induction l with
  | nil => rfl
  | cons x xs ih =>
    simp only [List.filter_cons, List.length_cons]
    by_cases hp : p x = true
    · rw [if_pos hp, if_neg (by simp [hp])]
      simp only [List.length_cons]
      omega
    · rw [if_neg hp, if_pos (by simp [Bool.eq_false_iff.mpr hp])]
      simp only [List.length_cons]
      omega

/-! ### heldSum lemmas -/

theorem heldSum_nil (c : String) (t : TicketTier) (now : Nat) :
    heldSum [] c t now = 0 := rfl

theorem heldSum_cons (x : Hold) (l : List Hold) (c : String) (t : TicketTier) (now : Nat) :
    heldSum (x :: l) c t now = holdContrib c t now x + heldSum l c t now := by
  by_cases hx : x.concertId = c ∧ x.tier = t ∧ now < x.expiresAt
  · rw [heldSum, List.filter_cons_of_pos (by simp [holdCounts, hx])]
    simp [holdContrib, hx, heldSum]
  · rw [heldSum, List.filter_cons_of_neg (by simp [holdCounts, hx])]
    simp [holdContrib, hx, heldSum]

theorem heldSum_eq_sum (l : List Hold) (c : String) (t : TicketTier) (now : Nat) :
    heldSum l c t now = (l.map (holdContrib c t now)).sum := by
  induction l with
  | nil => rfl
  | cons x xs ih => rw [heldSum_cons, List.map_cons, List.sum_cons, ih]

theorem heldSum_append (l1 l2 : List Hold) (c : String) (t : TicketTier) (now : Nat) :
    heldSum (l1 ++ l2) c t now = heldSum l1 c t now + heldSum l2 c t now := by
  simp [heldSum_eq_sum]

theorem heldSum_filter_of (q : Hold → Bool) (l : List Hold) (c : String)
    (t : TicketTier) (now : Nat)
    (h : ∀ x ∈ l, q x = false → holdContrib c t now x = 0) :
    heldSum (l.filter q) c t now = heldSum l c t now := by
  induction l with
  | nil => rfl
  | cons x xs ih =>
    have ih' := ih (fun y hy => h y (by simp [hy]))
    by_cases hq : q x = true
    · rw [List.filter_cons_of_pos hq, heldSum_cons, heldSum_cons, ih']
    · have hq' : q x = false := by simpa using hq
      rw [List.filter_cons_of_neg (by simp [hq']), heldSum_cons, h x (by simp) hq', ih',
        Nat.zero_add]

theorem heldSum_map_of (f : Hold → Hold) (l : List Hold) (c : String)
    (t : TicketTier) (now : Nat)
    (h : ∀ x ∈ l, holdContrib c t now (f x) = holdContrib c t now x) :
    heldSum (l.map f) c t now = heldSum l c t now := by
  rw [heldSum_eq_sum, heldSum_eq_sum, List.map_map]
  exact sum_map_congr _ _ l (fun x hx => h x hx)

/-! ### Claim C6: expiry correctness -/

/-- C6: a hold whose expiresAt is not strictly after now is never counted by
the availability computation (removing such a row from anywhere in the holds
table leaves getAvailableQuantity unchanged, and availability is
total - sold - sum of active hold quantities for every concert and tier);
cleanupExpiredHolds deletes exactly the holds with expiresAt <= now, leaves
every non-expired hold untouched, and returns the number of holds removed. -/
theorem expiry_correctness :
    (∀ (st : St) (now : Nat) (c : String) (t : TicketTier) (h : Hold) (l1 l2 : List Hold),
      st.holds = l1 ++ h :: l2 → ¬ now < h.expiresAt →
      getAvailableQuantity { st with holds := l1 ++ l2 } now c t =
        getAvailableQuantity st now c t)
    ∧ (∀ (st : St) (now : Nat),
        (cleanupExpiredHolds st now).1.holds =
          st.holds.filter (fun h => decide (now < h.expiresAt))
        ∧ (∀ h ∈ st.holds, now < h.expiresAt → h ∈ (cleanupExpiredHolds st now).1.holds)
        ∧ (∀ h ∈ (cleanupExpiredHolds st now).1.holds, h ∈ st.holds ∧ now < h.expiresAt)
        ∧ (cleanupExpiredHolds st now).2 + (cleanupExpiredHolds st now).1.holds.length =
            st.holds.length)
    ∧ (∀ (st : St) (now : Nat) (c : String) (t : TicketTier) (e : InvEntry),
        st.inv c t = some e →
        getAvailableQuantity st now c t = (e.total : Int) - e.sold - heldSum st.holds c t now) := by
  refine ⟨?_, ?_, ?_⟩
  · intro st now c t h l1 l2 hsplit hexp
    have hc : holdContrib c t now h = 0 := by simp [holdContrib, hexp]
    have hsum : heldSum (l1 ++ l2) c t now = heldSum st.holds c t now := by
      rw [hsplit, heldSum_append, heldSum_append, heldSum_cons, hc, Nat.zero_add]
    cases he : st.inv c t with
    | none => simp [getAvailableQuantity, he]
    | some e => simp [getAvailableQuantity, he, hsum]
  · intro st now
    refine ⟨rfl, ?_, ?_, ?_⟩
    · intro h hm hact
      exact List.mem_filter.mpr ⟨hm, by simpa using hact⟩
    · intro h hm
      have := List.mem_filter.mp hm
      exact ⟨this.1, by simpa using this.2⟩
    · exact length_filter_split (fun h => decide (now < h.expiresAt)) st.holds
  · intro st now c t e he
    simp [getAvailableQuantity, he]

/-- Concrete instantiation of expiry_correctness: removing the expired GA
hold from stWExp leaves availability unchanged, cleanup keeps exactly the
active hold, and the availability formula holds for GA at (5, 0). -/
theorem expiry_correctness_witness :
    (stWExp.holds = [] ++ expiredHoldW :: [activeHoldW] ∧ ¬ 50 < expiredHoldW.expiresAt
      ∧ getAvailableQuantity { stWExp with holds := [] ++ [activeHoldW] } 50 "c" TicketTier.GA =
          getAvailableQuantity stWExp 50 "c" TicketTier.GA)
    ∧ ((cleanupExpiredHolds stWExp 50).1.holds =
        stWExp.holds.filter (fun h => decide (50 < h.expiresAt))
      ∧ (cleanupExpiredHolds stWExp 50).2 + (cleanupExpiredHolds stWExp 50).1.holds.length =
          stWExp.holds.length)
    ∧ (stWExp.inv "c" TicketTier.GA = some ⟨5, 0⟩
      ∧ getAvailableQuantity stWExp 50 "c" TicketTier.GA =
          ((5 : Nat) : Int) - (0 : Nat) - heldSum stWExp.holds "c" TicketTier.GA 50) := by
  refine ⟨⟨rfl, by decide, ?_⟩, ⟨?_, ?_⟩, ⟨rfl, ?_⟩⟩
  · exact expiry_correctness.1 stWExp 50 "c" TicketTier.GA expiredHoldW [] [activeHoldW]
      rfl (by decide)
  · exact (expiry_correctness.2.1 stWExp 50).1
  · exact (expiry_correctness.2.1 stWExp 50).2.2.2
  · exact expiry_correctness.2.2 stWExp 50 "c" TicketTier.GA ⟨5, 0⟩ rfl

/-! ### Claim C7: cap validation fails fast with no side effects -/

/-- C7: when some single selection exceeds MAX_TICKETS_PER_TIER or the sum
of selections exceeds MAX_TICKETS_PER_ORDER, createOrUpdateHolds returns
success = false with an empty holds list, an empty unavailable list, and the
state completely unchanged (no hold created, updated, deleted or
refreshed). -/
theorem createOrUpdateHolds_cap_validation
    (st : St) (now : Nat) (sess c : String) (sels : List TicketSelection)
    (hcap : (∃ s ∈ sels, MAX_TICKETS_PER_TIER < s.quantity) ∨
      MAX_TICKETS_PER_ORDER < (sels.map (fun s => s.quantity)).sum) :
    createOrUpdateHolds st now sess c sels = (st, ⟨false, [], []⟩) := by
  unfold createOrUpdateHolds
  by_cases hany : sels.any (fun s => decide (MAX_TICKETS_PER_TIER < s.quantity)) = true
  · rw [if_pos hany]
  · have hsum : MAX_TICKETS_PER_ORDER < (sels.map (fun s => s.quantity)).sum := by
      rcases hcap with ⟨s, hs, hq⟩ | hsum
      · exact absurd (List.any_eq_true.mpr ⟨s, hs, by simpa using hq⟩) hany
      · exact hsum
    rw [if_neg hany, if_pos hsum]

/-- Concrete instantiation: a request for 11 GA tickets is rejected with no
state change. -/
theorem createOrUpdateHolds_cap_validation_witness :
    ((∃ s ∈ [(⟨TicketTier.GA, 11⟩ : TicketSelection)], MAX_TICKETS_PER_TIER < s.quantity) ∨
      MAX_TICKETS_PER_ORDER <
        (([(⟨TicketTier.GA, 11⟩ : TicketSelection)]).map (fun s => s.quantity)).sum)
    ∧ createOrUpdateHolds demoState 0 "A" "c" [⟨TicketTier.GA, 11⟩] =
        (demoState, ⟨false, [], []⟩) := by
  have hc : (∃ s ∈ [(⟨TicketTier.GA, 11⟩ : TicketSelection)],
      MAX_TICKETS_PER_TIER < s.quantity) ∨
      MAX_TICKETS_PER_ORDER <
        (([(⟨TicketTier.GA, 11⟩ : TicketSelection)]).map (fun s => s.quantity)).sum :=
    Or.inl ⟨⟨TicketTier.GA, 11⟩, by simp, by decide⟩
  exact ⟨hc, createOrUpdateHolds_cap_validation demoState 0 "A" "c" _ hc⟩

/-! ### Claim C1: the hold/sold inventory invariant fails on the code -/

/-- C1 fails on the code: after the three-call trace of c1St3 (A holds all
5 GA tickets, the hold expires unswept, B holds all 5 GA tickets, A
re-submits the identical selection), the GA inventory row still reads
total 5, sold 0, while the non-expired holds for ("c", GA) sum to 10: the
existing-hold lookup of createOrUpdateHolds has no expiry filter, so A's
expired hold is revived with delta 0 and no availability check, and
soldQuantity + active held = 0 + 10 exceeds totalQuantity = 5. -/
theorem c1_invariant_violation :
    c1St3.inv "c" TicketTier.GA = some ⟨5, 0⟩
    ∧ heldSum c1St3.holds "c" TicketTier.GA 600000 = 10
    ∧ ¬ (0 + 10 ≤ 5) := by
  refine ⟨by decide, by decide, by decide⟩

/-! ### processBooking lemmas -/

theorem any_eq_false_of {α} (p : α → Bool) (l : List α) (h : ∀ x ∈ l, p x = false) :
    l.any p = false := by
  induction l with
  | nil => rfl
  | cons x xs ih =>
    rw [List.any_cons, h x (by simp), ih (fun y hy => h y (by simp [hy])), Bool.or_self]

theorem filterMap_eq_nil_of {α β} (f : α → Option β) (l : List α)
    (h : ∀ x ∈ l, f x = none) : l.filterMap f = [] := by
  induction l with
  | nil => rfl
  | cons x xs ih =>
    rw [List.filterMap_cons, h x (by simp)]
    exact ih (fun y hy => h y (by simp [hy]))

theorem soldAfter_apply (items : List BookingItem)
    (f : String → TicketTier → Option InvEntry) (c c' : String) (t : TicketTier) :
    soldAfter f c items c' t =
      if c' = c then (f c' t).map (fun e => ⟨e.total, e.sold + tierQtySum items t⟩)
      else f c' t := by
  induction items generalizing f with
  | nil =>
    by_cases h : c' = c
    · simp only [soldAfter, List.foldl_nil, if_pos h]
      cases f c' t with
      | none => rfl
      | some e => simp [tierQtySum]
    · simp [soldAfter, if_neg h]
  | cons it rest ih =>
    have hstep : soldAfter f c (it :: rest) c' t =
        soldAfter (fun c' t' =>
          if c' = c ∧ t' = it.tier then (f c' t').map (fun e => ⟨e.total, e.sold + it.quantity⟩)
          else f c' t') c rest c' t := by
      rw [soldAfter, List.foldl_cons, soldAfter]
    rw [hstep, ih]
    by_cases hc : c' = c
    · rw [if_pos hc, if_pos hc]
      by_cases ht : t = it.tier
      · rw [if_pos ⟨hc, ht⟩]
        have hsum : tierQtySum (it :: rest) t = it.quantity + tierQtySum rest t := by
          rw [tierQtySum, List.filter_cons_of_pos (by simp [ht.symm])]
          simp [tierQtySum]
        rw [hsum]
        cases f c' t with
        | none => rfl
        | some e => simp [Nat.add_assoc]
      · rw [if_neg (fun hcon => ht hcon.2)]
        have hsum : tierQtySum (it :: rest) t = tierQtySum rest t := by
          rw [tierQtySum, List.filter_cons_of_neg (by simp; exact fun hcon => ht hcon.symm)]
          rfl
        rw [hsum]
    · rw [if_neg hc, if_neg hc, if_neg (fun hcon => hc hcon.1)]

theorem holdCheckFails_iff (st : St) (now : Nat) (sess c : String)
    (sels : List TicketSelection) :
    bookingHoldCheckFails st now sess c sels = true ↔
    ∃ s ∈ sels, s.quantity ≠ 0 ∧
      (lookupHoldByTier st now sess c s.tier = none ∨
        ∃ h, lookupHoldByTier st now sess c s.tier = some h ∧ h.quantity < s.quantity) := by
  rw [bookingHoldCheckFails, List.any_eq_true]
  constructor
  · rintro ⟨s, hs, hp⟩
    rw [Bool.and_eq_true] at hp
    obtain ⟨h1, h2⟩ := hp
    have hq : s.quantity ≠ 0 := by simpa using h1
    cases hl : lookupHoldByTier st now sess c s.tier with
    | none => exact ⟨s, hs, hq, Or.inl hl⟩
    | some h =>
      rw [hl] at h2
      exact ⟨s, hs, hq, Or.inr ⟨h, hl, by simpa using h2⟩⟩
  · rintro ⟨s, hs, hq, hcase⟩
    refine ⟨s, hs, ?_⟩
    rw [Bool.and_eq_true]
    refine ⟨by simpa using hq, ?_⟩
    rcases hcase with hl | ⟨h, hl, hlt⟩
    · rw [hl]
    · rw [hl]
      simpa using hlt

theorem invCheckFails_iff (st : St) (c : String) (sels : List TicketSelection) :
    bookingInvCheckFails st c sels = true ↔
    ∃ s ∈ sels, s.quantity ≠ 0 ∧
      (st.inv c s.tier = none ∨
        ∃ e, st.inv c s.tier = some e ∧ (e.total : Int) - e.sold < (s.quantity : Int)) := by
  rw [bookingInvCheckFails, List.any_eq_true]
  constructor
  · rintro ⟨s, hs, hp⟩
    rw [Bool.and_eq_true] at hp
    obtain ⟨h1, h2⟩ := hp
    have hq : s.quantity ≠ 0 := by simpa using h1
    cases hl : st.inv c s.tier with
    | none => exact ⟨s, hs, hq, Or.inl hl⟩
    | some e =>
      rw [hl] at h2
      exact ⟨s, hs, hq, Or.inr ⟨e, hl, by simpa using h2⟩⟩
  · rintro ⟨s, hs, hq, hcase⟩
    refine ⟨s, hs, ?_⟩
    rw [Bool.and_eq_true]
    refine ⟨by simpa using hq, ?_⟩
    rcases hcase with hl | ⟨e, hl, hlt⟩
    · rw [hl]
    · rw [hl]
      simpa using hlt

/-! ### Claim C10: processBooking on an all-zero selection -/

/-- C10: for an empty selections list, or one where every quantity is 0,
processBooking never fails its hold or inventory checks (a failure can only
be the retryable payment decline, whatever the state); on payment success it
creates a CONFIRMED booking with totalAmount 0 and no items, leaves the
inventory function — hence every soldQuantity — unchanged, and still deletes
all of the session's holds for the concert. -/
theorem processBooking_empty_selection
    (st : St) (now : Nat) (sess c : String) (sels : List TicketSelection)
    (hz : ∀ s ∈ sels, s.quantity = 0) :
    processBooking st now sess c sels false = (st, ⟨false, none, some true⟩)
    ∧ processBooking st now sess c sels true =
      ({ inv := st.inv,
         holds := st.holds.filter (fun h => !holdInSession sess c h),
         bookings := st.bookings ++
           [⟨st.nextId, sess, c, 0, BookingStatus.CONFIRMED, now, some now, []⟩],
         nextId := st.nextId + 1 },
        ⟨true, some ⟨st.nextId, sess, c, 0, BookingStatus.CONFIRMED, now, some now, []⟩, none⟩) := by
  have hH : bookingHoldCheckFails st now sess c sels = false := by
    apply any_eq_false_of
    intro s hs
    simp [hz s hs]
  have hI : bookingInvCheckFails st c sels = false := by
    apply any_eq_false_of
    intro s hs
    simp [hz s hs]
  have hitems : bookingItemsOf sels = [] := by
    apply filterMap_eq_nil_of
    intro s hs
    simp [hz s hs]
  constructor
  · simp [processBooking, hH, hI]
  · simp [processBooking, hH, hI, hitems, soldAfter]

/-- Concrete instantiation: with a single zero-quantity GA selection in the
freshly seeded state (no holds, nothing sold), a successful payment yields a
CONFIRMED zero-amount booking with no items and the inventory untouched. -/
theorem processBooking_empty_selection_witness :
    (∀ s ∈ [(⟨TicketTier.GA, 0⟩ : TicketSelection)], s.quantity = 0)
    ∧ processBooking demoState 7 "A" "c" [⟨TicketTier.GA, 0⟩] false =
        (demoState, ⟨false, none, some true⟩)
    ∧ processBooking demoState 7 "A" "c" [⟨TicketTier.GA, 0⟩] true =
      ({ inv := demoState.inv,
         holds := demoState.holds.filter (fun h => !holdInSession "A" "c" h),
         bookings := demoState.bookings ++
           [⟨demoState.nextId, "A", "c", 0, BookingStatus.CONFIRMED, 7, some 7, []⟩],
         nextId := demoState.nextId + 1 },
        ⟨true, some ⟨demoState.nextId, "A", "c", 0, BookingStatus.CONFIRMED, 7, some 7, []⟩,
          none⟩) := by
  have hz : ∀ s ∈ [(⟨TicketTier.GA, 0⟩ : TicketSelection)], s.quantity = 0 := by decide
  have h := processBooking_empty_selection demoState 7 "A" "c" [⟨TicketTier.GA, 0⟩] hz
  exact ⟨hz, h.1, h.2⟩

/-! ### Claim C3: processBooking failure taxonomy and no mutation on failure -/

/-- C3: processBooking fails with retryAllowed = false exactly when some
non-zero selection has no matching non-expired hold for the session, or the
matching hold is for fewer tickets, or the raw inventory check
(total - sold < requested, or a missing inventory row) fails; it fails with
retryAllowed = true exactly when those checks pass and the simulated payment
declines; and on any failure the state — bookings, soldQuantity and the
session's holds — is completely unchanged. -/
theorem processBooking_failure_taxonomy
    (st : St) (now : Nat) (sess c : String) (sels : List TicketSelection) (pay : Bool) :
    (((processBooking st now sess c sels pay).2.success = false
        ∧ (processBooking st now sess c sels pay).2.retryAllowed = some false)
      ↔ ((∃ s ∈ sels, s.quantity ≠ 0 ∧
            (lookupHoldByTier st now sess c s.tier = none ∨
              ∃ h, lookupHoldByTier st now sess c s.tier = some h ∧ h.quantity < s.quantity))
          ∨ (∃ s ∈ sels, s.quantity ≠ 0 ∧
            (st.inv c s.tier = none ∨
              ∃ e, st.inv c s.tier = some e ∧ (e.total : Int) - e.sold < (s.quantity : Int)))))
    ∧ (((processBooking st now sess c sels pay).2.success = false
        ∧ (processBooking st now sess c sels pay).2.retryAllowed = some true)
      ↔ (¬ (∃ s ∈ sels, s.quantity ≠ 0 ∧
            (lookupHoldByTier st now sess c s.tier = none ∨
              ∃ h, lookupHoldByTier st now sess c s.tier = some h ∧ h.quantity < s.quantity))
          ∧ ¬ (∃ s ∈ sels, s.quantity ≠ 0 ∧
            (st.inv c s.tier = none ∨
              ∃ e, st.inv c s.tier = some e ∧ (e.total : Int) - e.sold < (s.quantity : Int)))
          ∧ pay = false))
    ∧ ((processBooking st now sess c sels pay).2.success = false →
        (processBooking st now sess c sels pay).1 = st) := by
  have bh := holdCheckFails_iff st now sess c sels
  have bi := invCheckFails_iff st c sels
  by_cases hH : bookingHoldCheckFails st now sess c sels = true
  · have hF := bh.mp hH
    have hres : processBooking st now sess c sels pay = (st, ⟨false, none, some false⟩) := by
      simp [processBooking, hH]
    rw [hres]
    refine ⟨⟨fun _ => Or.inl hF, fun _ => ⟨rfl, rfl⟩⟩, ?_, fun _ => rfl⟩
    constructor
    · rintro ⟨_, hcon⟩
      exact absurd hcon (by simp)
    · rintro ⟨hnA, _, _⟩
      exact absurd hF hnA
  · have hHf : bookingHoldCheckFails st now sess c sels = false := by
      simpa using hH
    have hFn : ¬ ∃ s ∈ sels, s.quantity ≠ 0 ∧
        (lookupHoldByTier st now sess c s.tier = none ∨
          ∃ h, lookupHoldByTier st now sess c s.tier = some h ∧ h.quantity < s.quantity) :=
      fun hc => hH (bh.mpr hc)
    by_cases hI : bookingInvCheckFails st c sels = true
    · have hFI := bi.mp hI
      have hres : processBooking st now sess c sels pay = (st, ⟨false, none, some false⟩) := by
        simp [processBooking, hHf, hI]
      rw [hres]
      refine ⟨⟨fun _ => Or.inr hFI, fun _ => ⟨rfl, rfl⟩⟩, ?_, fun _ => rfl⟩
      constructor
      · rintro ⟨_, hcon⟩
        exact absurd hcon (by simp)
      · rintro ⟨_, hnB, _⟩
        exact absurd hFI hnB
    · have hIf : bookingInvCheckFails st c sels = false := by
        simpa using hI
      have hFIn : ¬ ∃ s ∈ sels, s.quantity ≠ 0 ∧
          (st.inv c s.tier = none ∨
            ∃ e, st.inv c s.tier = some e ∧ (e.total : Int) - e.sold < (s.quantity : Int)) :=
        fun hc => hI (bi.mpr hc)
      cases pay with
      | false =>
        have hres : processBooking st now sess c sels false = (st, ⟨false, none, some true⟩) := by
          simp [processBooking, hHf, hIf]
        rw [hres]
        refine ⟨?_, ⟨fun _ => ⟨hFn, hFIn, rfl⟩, fun _ => ⟨rfl, rfl⟩⟩, fun _ => rfl⟩
        constructor
        · rintro ⟨_, hcon⟩
          exact absurd hcon (by simp)
        · rintro (hA | hB)
          · exact absurd hA hFn
          · exact absurd hB hFIn
      | true =>
        have hsucc : (processBooking st now sess c sels true).2.success = true := by
          simp [processBooking, hHf, hIf]
        refine ⟨?_, ?_, ?_⟩
        · constructor
          · rintro ⟨hcon, _⟩
            rw [hsucc] at hcon
            exact absurd hcon (by simp)
          · rintro (hA | hB)
            · exact absurd hA hFn
            · exact absurd hB hFIn
        · constructor
          · rintro ⟨hcon, _⟩
            rw [hsucc] at hcon
            exact absurd hcon (by simp)
          · rintro ⟨_, _, hcon⟩
            exact absurd hcon (by simp)
        · intro hcon
          rw [hsucc] at hcon
          exact absurd hcon (by simp)

/-- Concrete instantiation: booking one VIP ticket with no VIP hold fails
non-retryably and leaves the state untouched, while a payment decline with a
valid GA hold fails retryably. -/
theorem processBooking_failure_taxonomy_witness :
    (processBooking stBookW 50 "A" "c" [⟨TicketTier.VIP, 1⟩] true).2.success = false
    ∧ (processBooking stBookW 50 "A" "c" [⟨TicketTier.VIP, 1⟩] true).2.retryAllowed = some false
    ∧ (processBooking stBookW 50 "A" "c" [⟨TicketTier.VIP, 1⟩] true).1 = stBookW
    ∧ (processBooking stBookW 50 "A" "c" [⟨TicketTier.GA, 2⟩] false).2.retryAllowed = some true := by
  refine ⟨by decide, by decide, ?_, by decide⟩
  exact (processBooking_failure_taxonomy stBookW 50 "A" "c" [⟨TicketTier.VIP, 1⟩] true).2.2
    (by decide)

/-! ### Claim C2: processBooking success effects -/

/-- C2: whenever processBooking reports success, exactly one new booking is
appended, with status CONFIRMED, one item per non-zero selection priced from
TICKET_TIERS with subtotal price * quantity, totalAmount the sum of the
subtotals; soldQuantity of each purchased (concert, tier) grows by exactly
the purchased quantity (other concerts' inventory is untouched); and every
one of the session's holds for the concert is deleted. -/
theorem processBooking_success_effects
    (st : St) (now : Nat) (sess c : String) (sels : List TicketSelection) (pay : Bool)
    (hs : (processBooking st now sess c sels pay).2.success = true) :
    ∃ b : Booking,
      (processBooking st now sess c sels pay).2.booking = some b
      ∧ (processBooking st now sess c sels pay).1.bookings = st.bookings ++ [b]
      ∧ b.status = BookingStatus.CONFIRMED
      ∧ b.items = sels.filterMap (fun s =>
          if s.quantity = 0 then none
          else some ⟨s.tier, s.quantity, (TICKET_TIERS s.tier).price,
            (TICKET_TIERS s.tier).price * s.quantity⟩)
      ∧ (∀ it ∈ b.items, it.pricePerTicket = (TICKET_TIERS it.tier).price
          ∧ it.subtotal = (TICKET_TIERS it.tier).price * it.quantity)
      ∧ b.totalAmount = (b.items.map (fun it => it.subtotal)).sum
      ∧ (∀ t e, st.inv c t = some e →
          (processBooking st now sess c sels pay).1.inv c t =
            some ⟨e.total, e.sold + tierQtySum b.items t⟩)
      ∧ (∀ c' t, c' ≠ c → (processBooking st now sess c sels pay).1.inv c' t = st.inv c' t)
      ∧ (processBooking st now sess c sels pay).1.holds =
          st.holds.filter (fun h => !holdInSession sess c h) := by
  by_cases hH : bookingHoldCheckFails st now sess c sels = true
  · rw [show (processBooking st now sess c sels pay) = (st, ⟨false, none, some false⟩) by
      simp [processBooking, hH]] at hs
    exact absurd hs (by simp)
  · have hHf : bookingHoldCheckFails st now sess c sels = false := by simpa using hH
    by_cases hI : bookingInvCheckFails st c sels = true
    · rw [show (processBooking st now sess c sels pay) = (st, ⟨false, none, some false⟩) by
        simp [processBooking, hHf, hI]] at hs
      exact absurd hs (by simp)
    · have hIf : bookingInvCheckFails st c sels = false := by simpa using hI
      cases pay with
      | false =>
        rw [show (processBooking st now sess c sels false) = (st, ⟨false, none, some true⟩) by
          simp [processBooking, hHf, hIf]] at hs
        exact absurd hs (by simp)
      | true =>
        refine ⟨⟨st.nextId, sess, c,
          ((bookingItemsOf sels).map (fun it => it.subtotal)).sum,
          BookingStatus.CONFIRMED, now, some now, bookingItemsOf sels⟩,
          ?_, ?_, rfl, rfl, ?_, rfl, ?_, ?_, ?_⟩
        · simp [processBooking, hHf, hIf]
        · simp [processBooking, hHf, hIf]
        · intro it hit
          simp only [bookingItemsOf] at hit
          obtain ⟨s, hsm, hfs⟩ := List.mem_filterMap.mp hit
          by_cases hq : s.quantity = 0
          · simp [hq] at hfs
          · rw [if_neg hq] at hfs
            have := Option.some.inj hfs
            rw [← this]
            exact ⟨rfl, rfl⟩
        · intro t e he
          have hinv : (processBooking st now sess c sels true).1.inv =
              soldAfter st.inv c (bookingItemsOf sels) := by
            simp [processBooking, hHf, hIf]
          rw [hinv, soldAfter_apply, if_pos rfl, he]
          rfl
        · intro c' t hc'
          have hinv : (processBooking st now sess c sels true).1.inv =
              soldAfter st.inv c (bookingItemsOf sels) := by
            simp [processBooking, hHf, hIf]
          rw [hinv, soldAfter_apply, if_neg hc']
        · simp [processBooking, hHf, hIf]

/-- Concrete instantiation: session A books its 2 held GA tickets at time
50; the payment succeeds and the effects of processBooking_success_effects
are realized. -/
theorem processBooking_success_effects_witness :
    (processBooking stBookW 50 "A" "c" [⟨TicketTier.GA, 2⟩] true).2.success = true
    ∧ ∃ b : Booking,
      (processBooking stBookW 50 "A" "c" [⟨TicketTier.GA, 2⟩] true).2.booking = some b
      ∧ (processBooking stBookW 50 "A" "c" [⟨TicketTier.GA, 2⟩] true).1.bookings =
          stBookW.bookings ++ [b]
      ∧ b.status = BookingStatus.CONFIRMED
      ∧ b.items = ([⟨TicketTier.GA, 2⟩] : List TicketSelection).filterMap (fun s =>
          if s.quantity = 0 then none
          else some ⟨s.tier, s.quantity, (TICKET_TIERS s.tier).price,
            (TICKET_TIERS s.tier).price * s.quantity⟩)
      ∧ (∀ it ∈ b.items, it.pricePerTicket = (TICKET_TIERS it.tier).price
          ∧ it.subtotal = (TICKET_TIERS it.tier).price * it.quantity)
      ∧ b.totalAmount = (b.items.map (fun it => it.subtotal)).sum
      ∧ (∀ t e, stBookW.inv "c" t = some e →
          (processBooking stBookW 50 "A" "c" [⟨TicketTier.GA, 2⟩] true).1.inv "c" t =
            some ⟨e.total, e.sold + tierQtySum b.items t⟩)
      ∧ (∀ c' t, c' ≠ "c" →
          (processBooking stBookW 50 "A" "c" [⟨TicketTier.GA, 2⟩] true).1.inv c' t =
            stBookW.inv c' t)
      ∧ (processBooking stBookW 50 "A" "c" [⟨TicketTier.GA, 2⟩] true).1.holds =
          stBookW.holds.filter (fun h => !holdInSession "A" "c" h) := by
  have hs : (processBooking stBookW 50 "A" "c" [⟨TicketTier.GA, 2⟩] true).2.success = true := by
    decide
  exact ⟨hs, processBooking_success_effects stBookW 50 "A" "c" [⟨TicketTier.GA, 2⟩] true hs⟩

/-! ### processHeartbeat lemmas -/

theorem if_lt_eq_min (a b : Nat) : (if b < a then b else a) = min a b := by
  by_cases h : b < a
  · rw [if_pos h, Nat.min_eq_right (Nat.le_of_lt h)]
  · rw [if_neg h, Nat.min_eq_left (Nat.le_of_not_lt h)]

theorem hbFinish_expiresAt (st : St) (now : Nat) (sess c : String)
    (active : List Hold) (base : Nat) :
    (hbFinish st now sess c active base).2.expiresAt =
      some (min base (oldestCreatedAt active + HOLD_CONFIG.hardCapMs)) := by
  rw [hbFinish, ← if_lt_eq_min]

theorem hbFinish_rows_set (st : St) (now : Nat) (sess c : String)
    (active : List Hold) (base : Nat) :
    ∀ h' ∈ (hbFinish st now sess c active base).1.holds,
      h'.sessionId = sess → h'.concertId = c →
      h'.expiresAt = min base (oldestCreatedAt active + HOLD_CONFIG.hardCapMs) := by
  intro h' hm hsess hcon
  rw [hbFinish] at hm
  obtain ⟨x, hx, hmap⟩ := List.mem_map.mp hm
  by_cases hins : holdInSession sess c x = true
  · rw [if_pos hins] at hmap
    rw [← hmap, ← if_lt_eq_min]
  · rw [if_neg hins] at hmap
    rw [← hmap] at hsess hcon
    exact absurd (by simp [holdInSession, hsess, hcon]) hins

theorem hbFinish_mem_refresh (st : St) (now : Nat) (sess c : String)
    (active : List Hold) (base : Nat) (h : Hold)
    (hm : h ∈ st.holds) (hsess : h.sessionId = sess) (hcon : h.concertId = c) :
    { h with
        expiresAt := min base (oldestCreatedAt active + HOLD_CONFIG.hardCapMs),
        lastActivityAt := now } ∈ (hbFinish st now sess c active base).1.holds := by
  rw [hbFinish, ← if_lt_eq_min]
  exact List.mem_map.mpr ⟨h, hm, by rw [if_pos (by simp [holdInSession, hsess, hcon])]⟩

theorem hbFinish_holds_eq (st : St) (now : Nat) (sess c : String)
    (active : List Hold) (base : Nat) :
    (hbFinish st now sess c active base).1.holds =
      st.holds.map (fun x =>
        if holdInSession sess c x then
          { x with
              expiresAt := min base (oldestCreatedAt active + HOLD_CONFIG.hardCapMs),
              lastActivityAt := now }
        else x) := by
  rw [hbFinish, ← if_lt_eq_min]

theorem processHeartbeat_hidden_eq (st : St) (now : Nat) (sess c : String) (la : Nat)
    (a : Hold) (rest : List Hold)
    (hl : getHoldsForConcert st now sess c = a :: rest) :
    processHeartbeat st now sess c la false =
      hbFinish st now sess c (a :: rest) (now + HOLD_CONFIG.gracePeriodMs) := by
  simp [processHeartbeat, hl]

theorem processHeartbeat_active_eq (st : St) (now : Nat) (sess c : String) (la : Nat)
    (a : Hold) (rest : List Hold)
    (hl : getHoldsForConcert st now sess c = a :: rest)
    (hfresh : (now : Int) - la ≤ HOLD_CONFIG.inactivityTimeoutMs) :
    processHeartbeat st now sess c la true =
      hbFinish st now sess c (a :: rest) (now + HOLD_CONFIG.holdDurationMs) := by
  simp [processHeartbeat, hl, not_lt.mpr hfresh]

theorem processHeartbeat_stale_eq (st : St) (now : Nat) (sess c : String) (la : Nat)
    (a : Hold) (rest : List Hold)
    (hl : getHoldsForConcert st now sess c = a :: rest)
    (hstale : (HOLD_CONFIG.inactivityTimeoutMs : Int) < (now : Int) - la) :
    processHeartbeat st now sess c la true = (st, ⟨true, a :: rest, some a.expiresAt⟩) := by
  simp [processHeartbeat, hl, hstale]

/-! ### Claim C5: heartbeat extension, monotonicity, hard cap -/

/-- C5: for a session with an active hold, a visible tab and fresh activity,
processHeartbeat sets every (session, concert) hold row's expiresAt to
now + holdDuration, clamped to the oldest active hold's createdAt + hardCap;
two consecutive such heartbeats at increasing times, the second still below
the hard cap, strictly increase the expiry; in both updating branches (tab
hidden or active) the returned and stored new expiry never exceeds the
oldest active hold's createdAt + hardCap; and the inactive branch leaves the
state completely unchanged. -/
theorem processHeartbeat_extension_hard_cap :
    (∀ (st : St) (now : Nat) (sess c : String) (la : Nat),
      getHoldsForConcert st now sess c ≠ [] →
      (now : Int) - la ≤ HOLD_CONFIG.inactivityTimeoutMs →
      (processHeartbeat st now sess c la true).2.expiresAt =
        some (min (now + HOLD_CONFIG.holdDurationMs)
          (oldestCreatedAt (getHoldsForConcert st now sess c) + HOLD_CONFIG.hardCapMs))
      ∧ ∀ h' ∈ (processHeartbeat st now sess c la true).1.holds,
          h'.sessionId = sess → h'.concertId = c →
          h'.expiresAt = min (now + HOLD_CONFIG.holdDurationMs)
            (oldestCreatedAt (getHoldsForConcert st now sess c) + HOLD_CONFIG.hardCapMs))
    ∧ (∀ (st : St) (sess c : String) (now1 la1 now2 la2 : Nat),
      getHoldsForConcert st now1 sess c ≠ [] →
      (now1 : Int) - la1 ≤ HOLD_CONFIG.inactivityTimeoutMs →
      getHoldsForConcert (processHeartbeat st now1 sess c la1 true).1 now2 sess c ≠ [] →
      (now2 : Int) - la2 ≤ HOLD_CONFIG.inactivityTimeoutMs →
      now1 < now2 →
      now2 + HOLD_CONFIG.holdDurationMs ≤
        oldestCreatedAt
            (getHoldsForConcert (processHeartbeat st now1 sess c la1 true).1 now2 sess c)
          + HOLD_CONFIG.hardCapMs →
      ∀ e1 e2, (processHeartbeat st now1 sess c la1 true).2.expiresAt = some e1 →
        (processHeartbeat (processHeartbeat st now1 sess c la1 true).1
            now2 sess c la2 true).2.expiresAt = some e2 →
        e1 < e2)
    ∧ (∀ (st : St) (now : Nat) (sess c : String) (la : Nat) (vis : Bool),
      getHoldsForConcert st now sess c ≠ [] →
      (vis = false ∨ (now : Int) - la ≤ HOLD_CONFIG.inactivityTimeoutMs) →
      (∀ e, (processHeartbeat st now sess c la vis).2.expiresAt = some e →
        e ≤ oldestCreatedAt (getHoldsForConcert st now sess c) + HOLD_CONFIG.hardCapMs)
      ∧ ∀ h' ∈ (processHeartbeat st now sess c la vis).1.holds,
          h'.sessionId = sess → h'.concertId = c →
          h'.expiresAt ≤
            oldestCreatedAt (getHoldsForConcert st now sess c) + HOLD_CONFIG.hardCapMs)
    ∧ (∀ (st : St) (now : Nat) (sess c : String) (la : Nat),
      getHoldsForConcert st now sess c ≠ [] →
      (HOLD_CONFIG.inactivityTimeoutMs : Int) < (now : Int) - la →
      (processHeartbeat st now sess c la true).1 = st) := by
  refine ⟨?_, ?_, ?_, ?_⟩
  · intro st now sess c la hA hfresh
    cases hl : getHoldsForConcert st now sess c with
    | nil => exact absurd hl hA
    | cons a rest =>
      rw [processHeartbeat_active_eq st now sess c la a rest hl hfresh]
      exact ⟨hbFinish_expiresAt st now sess c (a :: rest) _,
        hbFinish_rows_set st now sess c (a :: rest) _⟩
  · intro st sess c now1 la1 now2 la2 hA1 hf1 hA2 hf2 hlt hcap e1 e2 he1 he2
    cases hl1 : getHoldsForConcert st now1 sess c with
    | nil => exact absurd hl1 hA1
    | cons a1 rest1 =>
      rw [processHeartbeat_active_eq st now1 sess c la1 a1 rest1 hl1 hf1,
        hbFinish_expiresAt] at he1
      have he1' : e1 = min (now1 + HOLD_CONFIG.holdDurationMs)
          (oldestCreatedAt (a1 :: rest1) + HOLD_CONFIG.hardCapMs) :=
        (Option.some.inj he1).symm
      cases hl2 : getHoldsForConcert (processHeartbeat st now1 sess c la1 true).1
          now2 sess c with
      | nil => exact absurd hl2 hA2
      | cons a2 rest2 =>
        rw [processHeartbeat_active_eq _ now2 sess c la2 a2 rest2 hl2 hf2,
          hbFinish_expiresAt] at he2
        rw [hl2] at hcap
        have he2' : e2 = now2 + HOLD_CONFIG.holdDurationMs := by
          rw [← Option.some.inj he2, Nat.min_eq_left hcap]
        have h1 : e1 ≤ now1 + HOLD_CONFIG.holdDurationMs := by
          rw [he1']
          exact Nat.min_le_left _ _
        omega
  · intro st now sess c la vis hA hbr
    cases hl : getHoldsForConcert st now sess c with
    | nil => exact absurd hl hA
    | cons a rest =>
      cases vis with
      | false =>
        rw [processHeartbeat_hidden_eq st now sess c la a rest hl]
        refine ⟨?_, ?_⟩
        · intro e he
          rw [hbFinish_expiresAt] at he
          rw [← Option.some.inj he]
          exact Nat.min_le_right _ _
        · intro h' hm hsess hcon
          rw [hbFinish_rows_set st now sess c (a :: rest) _ h' hm hsess hcon]
          exact Nat.min_le_right _ _
      | true =>
        have hfresh : (now : Int) - la ≤ HOLD_CONFIG.inactivityTimeoutMs := by
          rcases hbr with hcon | hfr
          · exact absurd hcon (by simp)
          · exact hfr
        rw [processHeartbeat_active_eq st now sess c la a rest hl hfresh]
        refine ⟨?_, ?_⟩
        · intro e he
          rw [hbFinish_expiresAt] at he
          rw [← Option.some.inj he]
          exact Nat.min_le_right _ _
        · intro h' hm hsess hcon
          rw [hbFinish_rows_set st now sess c (a :: rest) _ h' hm hsess hcon]
          exact Nat.min_le_right _ _
  · intro st now sess c la hA hstale
    cases hl : getHoldsForConcert st now sess c with
    | nil => exact absurd hl hA
    | cons a rest =>
      rw [processHeartbeat_stale_eq st now sess c la a rest hl hstale]

/-- Concrete instantiation: session A holds 2 GA tickets (created 0, expiry
1000000); an active heartbeat at t=100 sets expiry 600100, a second at t=200
sets 600200 (strict increase), the hidden-tab heartbeat stays below the hard
cap 900000, and a heartbeat with stale activity at t=200000 changes
nothing. -/
theorem processHeartbeat_extension_hard_cap_witness :
    (processHeartbeat stHBW 100 "A" "c" 100 true).2.expiresAt =
      some (min (100 + HOLD_CONFIG.holdDurationMs)
        (oldestCreatedAt (getHoldsForConcert stHBW 100 "A" "c") + HOLD_CONFIG.hardCapMs))
    ∧ (600100 : Nat) < 600200
    ∧ (∀ e, (processHeartbeat stHBW 100 "A" "c" 0 false).2.expiresAt = some e →
        e ≤ oldestCreatedAt (getHoldsForConcert stHBW 100 "A" "c") + HOLD_CONFIG.hardCapMs)
    ∧ (processHeartbeat stHBW 200000 "A" "c" 0 true).1 = stHBW := by
  refine ⟨?_, ?_, ?_, ?_⟩
  · exact (processHeartbeat_extension_hard_cap.1 stHBW 100 "A" "c" 100
      (by decide) (by decide)).1
  · exact processHeartbeat_extension_hard_cap.2.1 stHBW "A" "c" 100 100 200 200
      (by decide) (by decide) (by decide) (by decide) (by decide) (by decide)
      600100 600200 (by decide) (by decide)
  · exact (processHeartbeat_extension_hard_cap.2.2.1 stHBW 100 "A" "c" 0 false
      (by decide) (Or.inl rfl)).1
  · exact processHeartbeat_extension_hard_cap.2.2.2 stHBW 200000 "A" "c" 0
      (by decide) (by decide)

/-! ### Claim C9: heartbeat revives expired holds -/

theorem heldSum_refresh_revive (l : List Hold) (sess c : String) (now e : Nat) (h : Hold)
    (hk : (l.map holdKey).Nodup) (hm : h ∈ l)
    (hsess : h.sessionId = sess) (hcon : h.concertId = c)
    (hexp : ¬ now < h.expiresAt) (he : now < e) :
    heldSum (l.map (fun x => if holdInSession sess c x then
        { x with expiresAt := e, lastActivityAt := now } else x)) c h.tier now =
      heldSum l c h.tier now + h.quantity := by
  obtain ⟨l1, l2, hsplit⟩ := List.append_of_mem hm
  subst hsplit
  rw [List.map_append, List.map_cons] at hk
  have hnotin : holdKey h ∉ (l1.map holdKey ++ l2.map holdKey) :=
    (List.nodup_cons.mp (List.nodup_middle.mp hk)).1
  have hne : ∀ x, x ∈ l1 ∨ x ∈ l2 → holdKey x ≠ holdKey h := by
    intro x hx hkey
    apply hnotin
    rw [← hkey]
    rcases hx with hx | hx
    · exact List.mem_append.mpr (Or.inl (List.mem_map_of_mem holdKey hx))
    · exact List.mem_append.mpr (Or.inr (List.mem_map_of_mem holdKey hx))
  have hcongr : ∀ x, x ∈ l1 ∨ x ∈ l2 →
      holdContrib c h.tier now (if holdInSession sess c x then
        { x with expiresAt := e, lastActivityAt := now } else x) =
      holdContrib c h.tier now x := by
    intro x hx
    by_cases hins : holdInSession sess c x = true
    · rw [if_pos hins]
      have hxs : x.sessionId = sess ∧ x.concertId = c := by
        simpa [holdInSession] using hins
      by_cases ht : x.tier = h.tier
      · exact absurd (show holdKey x = holdKey h by
          rw [holdKey, holdKey, hxs.1, hxs.2, hsess, hcon, ht]) (hne x hx)
      · simp [holdContrib, ht]
    · rw [if_neg hins]
  have hmid : holdContrib c h.tier now (if holdInSession sess c h then
      { h with expiresAt := e, lastActivityAt := now } else h) = h.quantity := by
    rw [if_pos (by simp [holdInSession, hsess, hcon])]
    simp [holdContrib, hcon, he]
  have hmid0 : holdContrib c h.tier now h = 0 := by
    simp [holdContrib, hexp]
  rw [List.map_append, List.map_cons, heldSum_append, heldSum_append,
    heldSum_cons, heldSum_cons,
    heldSum_map_of _ l1 c h.tier now (fun x hx => hcongr x (Or.inl hx)),
    heldSum_map_of _ l2 c h.tier now (fun x hx => hcongr x (Or.inr hx)),
    hmid, hmid0]
  omega

/-- C9: when a session has at least one active hold for a concert and the
heartbeat takes an updating branch (tab hidden, or visible with fresh
activity), the expiry update is applied to every (session, concert) hold
row with no expiry filter: an expired-but-unswept hold is rewritten to the
new expiry, and when that expiry is in the future the hold is counted by
the availability computation again — the active held sum for its tier grows
by exactly its quantity. -/
theorem processHeartbeat_revives_expired_holds
    (st : St) (now : Nat) (sess c : String) (la : Nat) (vis : Bool) (h : Hold)
    (hWF : WF st)
    (hA : getHoldsForConcert st now sess c ≠ [])
    (hbr : vis = false ∨ (now : Int) - la ≤ HOLD_CONFIG.inactivityTimeoutMs)
    (hm : h ∈ st.holds) (hsess : h.sessionId = sess) (hcon : h.concertId = c)
    (hexp : ¬ now < h.expiresAt) :
    ∃ e, (processHeartbeat st now sess c la vis).2.expiresAt = some e
      ∧ { h with expiresAt := e, lastActivityAt := now } ∈
          (processHeartbeat st now sess c la vis).1.holds
      ∧ (now < e →
          heldSum (processHeartbeat st now sess c la vis).1.holds c h.tier now =
            heldSum st.holds c h.tier now + h.quantity) := by
  cases hl : getHoldsForConcert st now sess c with
  | nil => exact absurd hl hA
  | cons a rest =>
    cases vis with
    | false =>
      rw [processHeartbeat_hidden_eq st now sess c la a rest hl]
      refine ⟨min (now + HOLD_CONFIG.gracePeriodMs)
        (oldestCreatedAt (a :: rest) + HOLD_CONFIG.hardCapMs),
        hbFinish_expiresAt st now sess c (a :: rest) _,
        hbFinish_mem_refresh st now sess c (a :: rest) _ h hm hsess hcon, ?_⟩
      intro he
      rw [hbFinish_holds_eq]
      exact heldSum_refresh_revive st.holds sess c now _ h hWF.2.2 hm hsess hcon hexp he
    | true =>
      have hfresh : (now : Int) - la ≤ HOLD_CONFIG.inactivityTimeoutMs := by
        rcases hbr with hcontra | hfr
        · exact absurd hcontra (by simp)
        · exact hfr
      rw [processHeartbeat_active_eq st now sess c la a rest hl hfresh]
      refine ⟨min (now + HOLD_CONFIG.holdDurationMs)
        (oldestCreatedAt (a :: rest) + HOLD_CONFIG.hardCapMs),
        hbFinish_expiresAt st now sess c (a :: rest) _,
        hbFinish_mem_refresh st now sess c (a :: rest) _ h hm hsess hcon, ?_⟩
      intro he
      rw [hbFinish_holds_eq]
      exact heldSum_refresh_revive st.holds sess c now _ h hWF.2.2 hm hsess hcon hexp he

/-- Concrete instantiation: session A has an active VIP hold and an expired
GA hold for 2 tickets; a fresh visible heartbeat at t=100 revives the GA
hold and the active GA held sum grows from 0 to 2. -/
theorem processHeartbeat_revives_expired_holds_witness :
    (WF stHB9W
      ∧ getHoldsForConcert stHB9W 100 "A" "c" ≠ []
      ∧ (⟨1, "A", "c", TicketTier.GA, 2, 0, 50, 0⟩ : Hold) ∈ stHB9W.holds
      ∧ ¬ (100 : Nat) < (50 : Nat))
    ∧ ∃ e, (processHeartbeat stHB9W 100 "A" "c" 100 true).2.expiresAt = some e
      ∧ ({ (⟨1, "A", "c", TicketTier.GA, 2, 0, 50, 0⟩ : Hold) with
            expiresAt := e, lastActivityAt := 100 }) ∈
          (processHeartbeat stHB9W 100 "A" "c" 100 true).1.holds
      ∧ (100 < e →
          heldSum (processHeartbeat stHB9W 100 "A" "c" 100 true).1.holds "c"
              TicketTier.GA 100 =
            heldSum stHB9W.holds "c" TicketTier.GA 100 + 2) := by
  refine ⟨⟨⟨by decide, by decide, by decide⟩, by decide, by decide, by decide⟩, ?_⟩
  exact processHeartbeat_revives_expired_holds stHB9W 100 "A" "c" 100 true
    ⟨1, "A", "c", TicketTier.GA, 2, 0, 50, 0⟩
    ⟨by decide, by decide, by decide⟩ (by decide) (Or.inr (by decide))
    (by decide) rfl rfl (by decide)

/-! ### stepSel lemmas, towards the createOrUpdateHolds loop characterization -/

theorem filter_congr_mem {α} (p q : α → Bool) (l : List α) (h : ∀ x ∈ l, p x = q x) :
    l.filter p = l.filter q := by
  induction l with
  | nil => rfl
  | cons x xs ih =>
    have ih' := ih (fun y hy => h y (by simp [hy]))
    rw [List.filter_cons, List.filter_cons, h x (by simp), ih']

theorem map_congr_mem {α β} (f g : α → β) (l : List α) (h : ∀ x ∈ l, f x = g x) :
    l.map f = l.map g := by
  induction l with
  | nil => rfl
  | cons x xs ih =>
    rw [List.map_cons, List.map_cons, h x (by simp), ih (fun y hy => h y (by simp [hy]))]

theorem classify_removed_iff (sess c : String) (now : Nat) (st : St) (s : TicketSelection) :
    classify sess c now st s = .removed ↔ s.quantity = 0 := by
  by_cases hq0 : s.quantity = 0
  · simp [classify, hq0]
  · rw [classify, if_neg hq0]
    by_cases hG : stepSkip sess c now st s
    · rw [if_pos hG]
      simp [hq0]
    · rw [if_neg hG]
      simp [hq0]

theorem classify_skipped_iff (sess c : String) (now : Nat) (st : St) (s : TicketSelection) :
    classify sess c now st s = .skipped ↔ ¬ s.quantity = 0 ∧ stepSkip sess c now st s := by
  by_cases hq0 : s.quantity = 0
  · simp [classify, hq0]
  · rw [classify, if_neg hq0]
    by_cases hG : stepSkip sess c now st s
    · rw [if_pos hG]
      exact ⟨fun _ => ⟨hq0, hG⟩, fun _ => rfl⟩
    · rw [if_neg hG]
      exact ⟨fun hcon => absurd hcon (by decide), fun hcon => absurd hcon.2 hG⟩

theorem classify_granted_iff (sess c : String) (now : Nat) (st : St) (s : TicketSelection) :
    classify sess c now st s = .granted ↔ ¬ s.quantity = 0 ∧ ¬ stepSkip sess c now st s := by
  by_cases hq0 : s.quantity = 0
  · simp [classify, hq0]
  · rw [classify, if_neg hq0]
    by_cases hG : stepSkip sess c now st s
    · rw [if_pos hG]
      exact ⟨fun hcon => absurd hcon (by decide), fun hcon => absurd hG hcon.2⟩
    · rw [if_neg hG]
      exact ⟨fun _ => ⟨hq0, hG⟩, fun _ => rfl⟩

theorem stepSel_of_removed (sess c : String) (now exp : Nat) (st : St) (s : TicketSelection)
    (hq0 : s.quantity = 0) :
    stepSel sess c now exp st s =
      ({ st with holds := st.holds.filter (fun h => !holdMatches sess c s.tier h) },
        none, none) := by
  rw [stepSel, if_pos hq0]

theorem stepSel_of_skipped (sess c : String) (now exp : Nat) (st : St) (s : TicketSelection)
    (h : classify sess c now st s = .skipped) :
    stepSel sess c now exp st s = (st, none, some s) := by
  obtain ⟨hq0, hG⟩ := (classify_skipped_iff sess c now st s).mp h
  rw [stepSel, if_neg hq0, if_pos hG]

theorem stepSel_inv (sess c : String) (now exp : Nat) (st : St) (s : TicketSelection) :
    (stepSel sess c now exp st s).1.inv = st.inv := by
  by_cases hq0 : s.quantity = 0
  · rw [stepSel, if_pos hq0]
  · by_cases hG : stepSkip sess c now st s
    · rw [stepSel, if_neg hq0, if_pos hG]
    · rw [stepSel, if_neg hq0, if_neg hG]
      cases hfind : st.holds.find? (holdMatches sess c s.tier) with
      | none => simp only [hfind]
      | some ex => simp only [hfind]

theorem stepSel_bookings (sess c : String) (now exp : Nat) (st : St) (s : TicketSelection) :
    (stepSel sess c now exp st s).1.bookings = st.bookings := by
  by_cases hq0 : s.quantity = 0
  · rw [stepSel, if_pos hq0]
  · by_cases hG : stepSkip sess c now st s
    · rw [stepSel, if_neg hq0, if_pos hG]
    · rw [stepSel, if_neg hq0, if_neg hG]
      cases hfind : st.holds.find? (holdMatches sess c s.tier) with
      | none => simp only [hfind]
      | some ex => simp only [hfind]

theorem stepSel_WF (sess c : String) (now exp : Nat) (st : St) (s : TicketSelection)
    (hWF : WF st) : WF (stepSel sess c now exp st s).1 := by
  obtain ⟨hids, hbound, hkeys⟩ := hWF
  by_cases hq0 : s.quantity = 0
  · rw [stepSel_of_removed sess c now exp st s hq0]
    have hsub : List.Sublist (st.holds.filter (fun h => !holdMatches sess c s.tier h))
        st.holds :=
      List.filter_sublist st.holds
    exact ⟨List.Nodup.sublist (hsub.map (fun h => h.id)) hids,
      fun h hm => hbound h (hsub.mem hm),
      List.Nodup.sublist (hsub.map holdKey) hkeys⟩
  · by_cases hG : stepSkip sess c now st s
    · rw [stepSel_of_skipped sess c now exp st s
        ((classify_skipped_iff sess c now st s).mpr ⟨hq0, hG⟩)]
      exact ⟨hids, hbound, hkeys⟩
    · rw [stepSel, if_neg hq0, if_neg hG]
      cases hfind : st.holds.find? (holdMatches sess c s.tier) with
      | some ex =>
        simp only [hfind]
        have hexm := List.mem_of_find?_eq_some hfind
        have hinj : ∀ x ∈ st.holds, x.id = ex.id → x = ex := fun x hx he =>
          nodup_map_inj hids hx hexm he
        have hididem : (st.holds.map (fun h =>
            if h.id = ex.id then refreshHold s.quantity exp now ex else h)).map
              (fun h => h.id) = st.holds.map (fun h => h.id) := by
          rw [List.map_map]
          apply map_congr_mem
          intro x hx
          by_cases hxe : x.id = ex.id
          · simp [hxe, refreshHold]
          · simp [hxe]
        have hkeyidem : (st.holds.map (fun h =>
            if h.id = ex.id then refreshHold s.quantity exp now ex else h)).map holdKey =
              st.holds.map holdKey := by
          rw [List.map_map]
          apply map_congr_mem
          intro x hx
          by_cases hxe : x.id = ex.id
          · rw [hinj x hx hxe]
            simp [refreshHold, holdKey]
          · simp [hxe]
        refine ⟨by rw [hididem]; exact hids, ?_, by rw [hkeyidem]; exact hkeys⟩
        intro h hm
        obtain ⟨x, hx, hmap⟩ := List.mem_map.mp hm
        by_cases hxe : x.id = ex.id
        · rw [if_pos hxe] at hmap
          rw [← hmap]
          exact hbound ex hexm
        · rw [if_neg hxe] at hmap
          rw [← hmap]
          exact hbound x hx
      | none =>
        simp only [hfind]
        have hnoex : ∀ x ∈ st.holds, holdMatches sess c s.tier x = false := by
          intro x hx
          simpa using List.find?_eq_none.mp hfind x hx
        refine ⟨?_, ?_, ?_⟩
        · rw [List.map_append, List.nodup_append]
          refine ⟨hids, by simp, ?_⟩
          intro a ha hb
          simp only [List.map_cons, List.map_nil, List.mem_singleton] at hb
          obtain ⟨x, hx, hxa⟩ := List.mem_map.mp ha
          have := hbound x hx
          omega
        · intro h hm
          rcases List.mem_append.mp hm with hm | hm
          · exact Nat.lt_succ_of_lt (hbound h hm)
          · simp only [List.mem_singleton] at hm
            rw [hm]
            exact Nat.lt_succ_self _
        · rw [List.map_append, List.nodup_append]
          refine ⟨hkeys, by simp, ?_⟩
          intro a ha hb
          simp only [List.map_cons, List.map_nil, List.mem_singleton] at hb
          obtain ⟨x, hx, hxa⟩ := List.mem_map.mp ha
          have hfalse := hnoex x hx
          rw [hb] at hxa
          have hx' : x.sessionId = sess ∧ x.concertId = c ∧ x.tier = s.tier := by
            have h1 := congrArg Prod.fst hxa
            have h2 := congrArg (fun p => p.2.1) hxa
            have h3 := congrArg (fun p => p.2.2) hxa
            exact ⟨h1, h2, h3⟩
          rw [holdMatches] at hfalse
          simp [hx'.1, hx'.2.1, hx'.2.2] at hfalse

theorem stepSel_frame (sess c : String) (now exp : Nat) (st : St) (s : TicketSelection)
    (hWF : WF st) (t : TicketTier) (ht : ¬ t = s.tier) :
    (stepSel sess c now exp st s).1.holds.find? (holdMatches sess c t) =
      st.holds.find? (holdMatches sess c t)
    ∧ ∀ n', heldSum (stepSel sess c now exp st s).1.holds c t n' =
        heldSum st.holds c t n' := by
  obtain ⟨hids, hbound, hkeys⟩ := hWF
  by_cases hq0 : s.quantity = 0
  · rw [stepSel_of_removed sess c now exp st s hq0]
    constructor
    · apply find?_filter_of
      intro x hx hpx
      have hx' : x.sessionId = sess ∧ x.concertId = c ∧ x.tier = t := by
        simpa [holdMatches] using hpx
      have hnm : ¬ (x.sessionId = sess ∧ x.concertId = c ∧ x.tier = s.tier) :=
        fun hcon => ht (hx'.2.2 ▸ hcon.2.2)
      simp [holdMatches, hnm]
    · intro n'
      apply heldSum_filter_of
      intro x hx hqx
      have hmx : holdMatches sess c s.tier x = true := by
        simpa using hqx
      have hx' : x.sessionId = sess ∧ x.concertId = c ∧ x.tier = s.tier := by
        simpa [holdMatches] using hmx
      rw [holdContrib, if_neg]
      intro hcon
      apply ht
      rw [← hcon.2.1, hx'.2.2]
  · by_cases hG : stepSkip sess c now st s
    · rw [stepSel_of_skipped sess c now exp st s
        ((classify_skipped_iff sess c now st s).mpr ⟨hq0, hG⟩)]
      exact ⟨rfl, fun _ => rfl⟩
    · rw [stepSel, if_neg hq0, if_neg hG]
      cases hfind : st.holds.find? (holdMatches sess c s.tier) with
      | some ex =>
        simp only [hfind]
        have hexm := List.mem_of_find?_eq_some hfind
        have hexp : ex.sessionId = sess ∧ ex.concertId = c ∧ ex.tier = s.tier := by
          simpa [holdMatches] using List.find?_some hfind
        have hinj : ∀ x ∈ st.holds, x.id = ex.id → x = ex := fun x hx he =>
          nodup_map_inj hids hx hexm he
        constructor
        · apply find?_map_pres
          · intro x hx
            by_cases hxe : x.id = ex.id
            · rw [hinj x hx hxe, if_pos rfl]
              rfl
            · rw [if_neg hxe]
          · intro x hx hpx
            have hx' : x.sessionId = sess ∧ x.concertId = c ∧ x.tier = t := by
              simpa [holdMatches] using hpx
            have hxe : ¬ x.id = ex.id := by
              intro hxe
              apply ht
              have hxx := hinj x hx hxe
              rw [← hx'.2.2, hxx]
              exact hexp.2.2
            rw [if_neg hxe]
        · intro n'
          apply heldSum_map_of
          intro x hx
          by_cases hxe : x.id = ex.id
          · rw [hinj x hx hxe, if_pos rfl]
            rw [holdContrib, holdContrib, refreshHold]
            have hnm : ¬ ex.tier = t := by
              intro hcon
              apply ht
              rw [← hcon]
              exact hexp.2.2
            rw [if_neg (fun hcon => hnm hcon.2.1), if_neg (fun hcon => hnm hcon.2.1)]
          · rw [if_neg hxe]
      | none =>
        simp only [hfind]
        have hnew : holdMatches sess c t
            (⟨st.nextId, sess, c, s.tier, s.quantity, now, exp, now⟩ : Hold) = false := by
          rw [holdMatches]
          simp only [decide_eq_false_iff_not]
          intro hcon
          exact ht hcon.2.2.symm
        constructor
        · rw [find?_append_single]
          cases hfl : st.holds.find? (holdMatches sess c t) with
          | some b => rfl
          | none => rw [if_neg (by simp [hnew])]
        · intro n'
          rw [heldSum_append, heldSum_cons, heldSum_nil]
          have : holdContrib c t n'
              (⟨st.nextId, sess, c, s.tier, s.quantity, now, exp, now⟩ : Hold) = 0 := by
            rw [holdContrib, if_neg]
            intro hcon
            exact ht hcon.2.1.symm
          omega

theorem stepSel_removed_own (sess c : String) (now exp : Nat) (st : St)
    (s : TicketSelection) (hq0 : s.quantity = 0) :
    (stepSel sess c now exp st s).1.holds.find? (holdMatches sess c s.tier) = none := by
  rw [stepSel_of_removed sess c now exp st s hq0]
  apply find?_eq_none_of
  intro x hx
  have hkeep := (List.mem_filter.mp hx).2
  simpa using hkeep

theorem stepSel_granted_spec (sess c : String) (now exp : Nat) (st : St)
    (s : TicketSelection) (hWF : WF st) (h : classify sess c now st s = .granted) :
    ∃ r, (stepSel sess c now exp st s).2.1 = some r
      ∧ (stepSel sess c now exp st s).2.2 = none
      ∧ (stepSel sess c now exp st s).1.holds.find? (holdMatches sess c s.tier) = some r
      ∧ r.quantity = s.quantity ∧ r.expiresAt = exp ∧ r.lastActivityAt = now
      ∧ r.sessionId = sess ∧ r.concertId = c ∧ r.tier = s.tier := by
  obtain ⟨hq0, hG⟩ := (classify_granted_iff sess c now st s).mp h
  obtain ⟨hids, hbound, hkeys⟩ := hWF
  rw [stepSel, if_neg hq0, if_neg hG]
  cases hfind : st.holds.find? (holdMatches sess c s.tier) with
  | none =>
    simp only [hfind]
    refine ⟨⟨st.nextId, sess, c, s.tier, s.quantity, now, exp, now⟩,
      by trivial, by trivial, ?_, by trivial, by trivial, by trivial,
      by trivial, by trivial, by trivial⟩
    rw [find?_append_single, hfind]
    simp [holdMatches]
  | some ex =>
    simp only [hfind]
    obtain ⟨l1, l2, hsplit, hfail⟩ := find?_split _ _ _ hfind
    have hexm := List.mem_of_find?_eq_some hfind
    have hexp2 : ex.sessionId = sess ∧ ex.concertId = c ∧ ex.tier = s.tier := by
      simpa [holdMatches] using List.find?_some hfind
    have hinj : ∀ x ∈ st.holds, x.id = ex.id → x = ex := fun x hx he =>
      nodup_map_inj hids hx hexm he
    refine ⟨refreshHold s.quantity exp now ex, by trivial, by trivial, ?_,
      by trivial, by trivial, by trivial, hexp2.1, hexp2.2.1, hexp2.2.2⟩
    rw [hsplit, List.map_append, List.map_cons]
    have hl1 : l1.map (fun x =>
        if x.id = ex.id then refreshHold s.quantity exp now ex else x) = l1 := by
      apply map_eq_self_of
      intro x hx
      have hxmem : x ∈ st.holds := by
        rw [hsplit]
        exact List.mem_append.mpr (Or.inl hx)
      by_cases hxe : x.id = ex.id
      · exfalso
        have h1 := hfail x hx
        rw [hinj x hxmem hxe] at h1
        rw [List.find?_some hfind] at h1
        simp at h1
      · rw [if_neg hxe]
    rw [hl1, if_pos rfl, find?_prefix_fail _ l1 _ hfail, List.find?_cons_of_pos]
    simp [holdMatches, refreshHold, hexp2.1, hexp2.2.1, hexp2.2.2]

theorem classify_congr (sess c : String) (now : Nat) (st st' : St) (s : TicketSelection)
    (hfind : st'.holds.find? (holdMatches sess c s.tier) =
      st.holds.find? (holdMatches sess c s.tier))
    (hsum : heldSum st'.holds c s.tier now = heldSum st.holds c s.tier now)
    (hinv : st'.inv = st.inv) :
    classify sess c now st' s = classify sess c now st s := by
  have hheld : currentHeldQty sess c st' s.tier = currentHeldQty sess c st s.tier := by
    rw [currentHeldQty, currentHeldQty, hfind]
  have hav : getAvailableQuantity st' now c s.tier = getAvailableQuantity st now c s.tier := by
    simp only [getAvailableQuantity, hinv, hsum]
  rw [classify, classify]
  simp only [stepSkip, holdDelta, hheld, hav]

theorem processSelections_cons (sess c : String) (now exp : Nat) (st : St)
    (s : TicketSelection) (rest : List TicketSelection) :
    processSelections sess c now exp st (s :: rest) =
      ((processSelections sess c now exp (stepSel sess c now exp st s).1 rest).1,
        (stepSel sess c now exp st s).2.1.toList ++
          (processSelections sess c now exp (stepSel sess c now exp st s).1 rest).2.1,
        (stepSel sess c now exp st s).2.2.toList ++
          (processSelections sess c now exp (stepSel sess c now exp st s).1 rest).2.2) := rfl

/-- The full characterization of the createOrUpdateHolds selection loop over
a request with pairwise-distinct tiers, against the state the call entered
with: the final state is well-formed with unchanged inventory; unavailable
collects exactly the selections the entry-state classification skips;
holdResults carries (tier, quantity) for exactly the granted selections;
tiers outside the request keep their hold row and their held sums; and each
selection's own (session, concert, tier) row ends as its classification
dictates (removed, refreshed at the requested quantity, or untouched). -/
theorem processSelections_spec (sess c : String) (now exp : Nat)
    (sels : List TicketSelection) :
    ∀ (st : St), WF st → (sels.map (fun s => s.tier)).Nodup →
      WF (processSelections sess c now exp st sels).1
      ∧ (processSelections sess c now exp st sels).1.inv = st.inv
      ∧ (processSelections sess c now exp st sels).2.2 =
          sels.filter (fun s => decide (classify sess c now st s = SelOutcome.skipped))
      ∧ (processSelections sess c now exp st sels).2.1.map (fun h => (h.tier, h.quantity)) =
          (sels.filter (fun s => decide (classify sess c now st s = SelOutcome.granted))).map
            (fun s => (s.tier, s.quantity))
      ∧ (∀ t, t ∉ sels.map (fun s => s.tier) →
          (processSelections sess c now exp st sels).1.holds.find? (holdMatches sess c t) =
            st.holds.find? (holdMatches sess c t)
          ∧ ∀ n', heldSum (processSelections sess c now exp st sels).1.holds c t n' =
              heldSum st.holds c t n')
      ∧ (∀ s ∈ sels,
          (s.quantity = 0 →
            (processSelections sess c now exp st sels).1.holds.find?
              (holdMatches sess c s.tier) = none)
          ∧ (classify sess c now st s = SelOutcome.granted →
            ∃ r, (processSelections sess c now exp st sels).1.holds.find?
                (holdMatches sess c s.tier) = some r
              ∧ r.quantity = s.quantity ∧ r.expiresAt = exp ∧ r.lastActivityAt = now
              ∧ r.sessionId = sess ∧ r.concertId = c ∧ r.tier = s.tier)
          ∧ (classify sess c now st s = SelOutcome.skipped →
            (processSelections sess c now exp st sels).1.holds.find?
              (holdMatches sess c s.tier) =
              st.holds.find? (holdMatches sess c s.tier)
            ∧ ∀ n', heldSum (processSelections sess c now exp st sels).1.holds c s.tier n' =
                heldSum st.holds c s.tier n')) := by
  induction sels with
  | nil =>
    intro st hWF _
    exact ⟨hWF, rfl, rfl, rfl, fun t _ => ⟨rfl, fun _ => rfl⟩,
      fun s hs => absurd hs (by simp)⟩
  | cons s rest ih =>
    intro st hWF hnd
    obtain ⟨hnd1, hnd2⟩ := List.nodup_cons.mp hnd
    have hWF1 := stepSel_WF sess c now exp st s hWF
    have hinv1 := stepSel_inv sess c now exp st s
    obtain ⟨IH1, IH2, IH3, IH4, IH5, IH6⟩ := ih (stepSel sess c now exp st s).1 hWF1 hnd2
    have htne : ∀ s' ∈ rest, ¬ s'.tier = s.tier := by
      intro s' hs' hcon
      apply hnd1
      show s.tier ∈ rest.map (fun s => s.tier)
      rw [← hcon]
      exact List.mem_map_of_mem (fun s => s.tier) hs'
    have hfr := fun (t : TicketTier) (ht : ¬ t = s.tier) =>
      stepSel_frame sess c now exp st s hWF t ht
    have hclseq : ∀ s' ∈ rest,
        classify sess c now (stepSel sess c now exp st s).1 s' =
          classify sess c now st s' := by
      intro s' hs'
      exact classify_congr sess c now st (stepSel sess c now exp st s).1 s'
        (hfr s'.tier (htne s' hs')).1 ((hfr s'.tier (htne s' hs')).2 now) hinv1
    rw [processSelections_cons]
    dsimp only
    have hrestU : (processSelections sess c now exp
          (stepSel sess c now exp st s).1 rest).2.2 =
        rest.filter (fun s' => decide (classify sess c now st s' = SelOutcome.skipped)) := by
      rw [IH3]
      apply filter_congr_mem
      intro x hx
      rw [hclseq x hx]
    have hrestG : (processSelections sess c now exp
          (stepSel sess c now exp st s).1 rest).2.1.map (fun h => (h.tier, h.quantity)) =
        (rest.filter (fun s' => decide (classify sess c now st s' = SelOutcome.granted))).map
          (fun s => (s.tier, s.quantity)) := by
      rw [IH4]
      have heq : rest.filter (fun s' =>
            decide (classify sess c now (stepSel sess c now exp st s).1 s' =
              SelOutcome.granted)) =
          rest.filter (fun s' =>
            decide (classify sess c now st s' = SelOutcome.granted)) := by
        apply filter_congr_mem
        intro x hx
        rw [hclseq x hx]
      rw [heq]
    refine ⟨IH1, IH2.trans hinv1, ?_, ?_, ?_, ?_⟩
    · rw [List.filter_cons]
      cases hcls : classify sess c now st s with
      | removed =>
        have h22 : (stepSel sess c now exp st s).2.2 = none := by
          rw [stepSel_of_removed sess c now exp st s
            ((classify_removed_iff sess c now st s).mp hcls)]
        rw [h22, hrestU, if_neg (by simp)]
        rfl
      | skipped =>
        have h22 : (stepSel sess c now exp st s).2.2 = some s := by
          rw [stepSel_of_skipped sess c now exp st s hcls]
        rw [h22, hrestU, if_pos (by simp)]
        rfl
      | granted =>
        obtain ⟨r, h21, h22, _⟩ := stepSel_granted_spec sess c now exp st s hWF hcls
        rw [h22, hrestU, if_neg (by simp)]
        rfl
    · rw [List.filter_cons]
      cases hcls : classify sess c now st s with
      | removed =>
        have h21 : (stepSel sess c now exp st s).2.1 = none := by
          rw [stepSel_of_removed sess c now exp st s
            ((classify_removed_iff sess c now st s).mp hcls)]
        rw [h21, if_neg (by simp)]
        simpa using hrestG
      | skipped =>
        have h21 : (stepSel sess c now exp st s).2.1 = none := by
          rw [stepSel_of_skipped sess c now exp st s hcls]
        rw [h21, if_neg (by simp)]
        simpa using hrestG
      | granted =>
        obtain ⟨r, h21, h22, hfindr, hq, he, hla, hsess, hconc, htier⟩ :=
          stepSel_granted_spec sess c now exp st s hWF hcls
        rw [h21, if_pos (by simp)]
        simp only [Option.toList_some, List.singleton_append, List.map_cons]
        rw [hrestG, htier, hq]
    · intro t ht
      rw [List.map_cons] at ht
      have ht1 : ¬ t = s.tier := fun hcon => ht (List.mem_cons.mpr (Or.inl hcon))
      have ht2 : t ∉ rest.map (fun s => s.tier) :=
        fun hcon => ht (List.mem_cons.mpr (Or.inr hcon))
      exact ⟨(IH5 t ht2).1.trans (hfr t ht1).1,
        fun n' => ((IH5 t ht2).2 n').trans ((hfr t ht1).2 n')⟩
    · intro s' hs'
      rcases List.mem_cons.mp hs' with hs' | hs'
      · subst hs'
        refine ⟨?_, ?_, ?_⟩
        · intro hq0
          exact (IH5 s'.tier hnd1).1.trans
            (stepSel_removed_own sess c now exp st s' hq0)
        · intro hg
          obtain ⟨r, h21, h22, hfindr, hq, he, hla, hsess, hconc, htier⟩ :=
            stepSel_granted_spec sess c now exp st s' hWF hg
          exact ⟨r, (IH5 s'.tier hnd1).1.trans hfindr, hq, he, hla, hsess, hconc, htier⟩
        · intro hsk
          have h1 : (stepSel sess c now exp st s').1 = st := by
            rw [stepSel_of_skipped sess c now exp st s' hsk]
          constructor
          · rw [(IH5 s'.tier hnd1).1, h1]
          · intro n'
            rw [(IH5 s'.tier hnd1).2 n', h1]
      · have hcl := hclseq s' hs'
        obtain ⟨C1, C2, C3⟩ := IH6 s' hs'
        refine ⟨C1, ?_, ?_⟩
        · intro hg
          exact C2 (by rw [hcl]; exact hg)
        · intro hsk
          have hC := C3 (by rw [hcl]; exact hsk)
          exact ⟨hC.1.trans (hfr s'.tier (htne s' hs')).1,
            fun n' => (hC.2 n').trans ((hfr s'.tier (htne s' hs')).2 n')⟩

theorem createOrUpdateHolds_eq_of_caps (st : St) (now : Nat) (sess c : String)
    (sels : List TicketSelection)
    (hv1 : ¬ sels.any (fun s => decide (MAX_TICKETS_PER_TIER < s.quantity)) = true)
    (hv2 : ¬ MAX_TICKETS_PER_ORDER < (sels.map (fun s => s.quantity)).sum) :
    createOrUpdateHolds st now sess c sels =
      ((processSelections sess c now (now + HOLD_CONFIG.holdDurationMs) st sels).1,
        ⟨(processSelections sess c now (now + HOLD_CONFIG.holdDurationMs) st sels).2.2.isEmpty,
          (processSelections sess c now (now + HOLD_CONFIG.holdDurationMs) st sels).2.1,
          (processSelections sess c now (now + HOLD_CONFIG.holdDurationMs) st sels).2.2⟩) := by
  rw [createOrUpdateHolds, if_neg hv1, if_neg hv2]

/-! ### Claim C4: partial application across a multi-tier request -/

/-- C4: for a cap-valid multi-tier request with pairwise-distinct tiers,
createOrUpdateHolds grants (upserts with the requested quantity and fresh
expiry) every selection whose increase fits the availability computed for
its tier, deletes the hold of every zero-quantity selection, and skips
exactly the selections whose increase exceeds availability, leaving their
rows untouched; unavailable lists exactly the skipped selections, success
holds iff nothing was skipped, holdResults carries (tier, quantity) for
exactly the granted selections — and the granted changes persist in the
returned state even when success is false (committed, not rolled back). -/
theorem createOrUpdateHolds_partial_application
    (st : St) (now : Nat) (sess c : String) (sels : List TicketSelection)
    (hWF : WF st) (hnd : (sels.map (fun s => s.tier)).Nodup)
    (hcap1 : ∀ s ∈ sels, s.quantity ≤ MAX_TICKETS_PER_TIER)
    (hcap2 : (sels.map (fun s => s.quantity)).sum ≤ MAX_TICKETS_PER_ORDER) :
    ((createOrUpdateHolds st now sess c sels).2.success = true ↔
      (createOrUpdateHolds st now sess c sels).2.unavailable = [])
    ∧ (createOrUpdateHolds st now sess c sels).2.unavailable =
        sels.filter (fun s => decide (classify sess c now st s = SelOutcome.skipped))
    ∧ (createOrUpdateHolds st now sess c sels).2.holds.map (fun h => (h.tier, h.quantity)) =
        (sels.filter (fun s => decide (classify sess c now st s = SelOutcome.granted))).map
          (fun s => (s.tier, s.quantity))
    ∧ ∀ s ∈ sels,
        (s.quantity = 0 →
          (createOrUpdateHolds st now sess c sels).1.holds.find?
            (holdMatches sess c s.tier) = none)
        ∧ (classify sess c now st s = SelOutcome.granted →
          ∃ r, (createOrUpdateHolds st now sess c sels).1.holds.find?
              (holdMatches sess c s.tier) = some r
            ∧ r.quantity = s.quantity ∧ r.expiresAt = now + HOLD_CONFIG.holdDurationMs
            ∧ r.lastActivityAt = now ∧ r.sessionId = sess ∧ r.concertId = c
            ∧ r.tier = s.tier)
        ∧ (classify sess c now st s = SelOutcome.skipped →
          s ∈ (createOrUpdateHolds st now sess c sels).2.unavailable
          ∧ (createOrUpdateHolds st now sess c sels).1.holds.find?
              (holdMatches sess c s.tier) =
            st.holds.find? (holdMatches sess c s.tier)) := by
  have hv1 : ¬ sels.any (fun s => decide (MAX_TICKETS_PER_TIER < s.quantity)) = true := by
    rw [any_eq_false_of _ _ (fun s hs => by simpa using Nat.not_lt.mpr (hcap1 s hs))]
    simp
  have hv2 : ¬ MAX_TICKETS_PER_ORDER < (sels.map (fun s => s.quantity)).sum :=
    Nat.not_lt.mpr hcap2
  rw [createOrUpdateHolds_eq_of_caps st now sess c sels hv1 hv2]
  dsimp only
  obtain ⟨SP1, SP2, SP3, SP4, SP5, SP6⟩ :=
    processSelections_spec sess c now (now + HOLD_CONFIG.holdDurationMs) sels st hWF hnd
  refine ⟨?_, SP3, SP4, ?_⟩
  · constructor
    · intro h
      exact List.isEmpty_iff.mp h
    · intro h
      rw [h]
      rfl
  · intro s hs
    obtain ⟨D1, D2, D3⟩ := SP6 s hs
    refine ⟨D1, D2, ?_⟩
    intro hsk
    refine ⟨?_, (D3 hsk).1⟩
    rw [SP3]
    exact List.mem_filter.mpr ⟨hs, by simp [hsk]⟩

/-- Concrete instantiation: in the seeded state, session A asks for 3 GA
(available 5, granted) and 2 VIP (available 1, skipped): the call fails,
unavailable is exactly the VIP selection, the GA hold is applied anyway. -/
theorem createOrUpdateHolds_partial_application_witness :
    (WF demoState
      ∧ ([(⟨TicketTier.GA, 3⟩ : TicketSelection), ⟨TicketTier.VIP, 2⟩].map
          (fun s => s.tier)).Nodup)
    ∧ ((createOrUpdateHolds demoState 0 "A" "c"
          [⟨TicketTier.GA, 3⟩, ⟨TicketTier.VIP, 2⟩]).2.success = true ↔
        (createOrUpdateHolds demoState 0 "A" "c"
          [⟨TicketTier.GA, 3⟩, ⟨TicketTier.VIP, 2⟩]).2.unavailable = [])
    ∧ (createOrUpdateHolds demoState 0 "A" "c"
          [⟨TicketTier.GA, 3⟩, ⟨TicketTier.VIP, 2⟩]).2.unavailable = [⟨TicketTier.VIP, 2⟩]
    ∧ (createOrUpdateHolds demoState 0 "A" "c"
          [⟨TicketTier.GA, 3⟩, ⟨TicketTier.VIP, 2⟩]).2.success = false
    ∧ (∃ r, (createOrUpdateHolds demoState 0 "A" "c"
          [⟨TicketTier.GA, 3⟩, ⟨TicketTier.VIP, 2⟩]).1.holds.find?
            (holdMatches "A" "c" TicketTier.GA) = some r ∧ r.quantity = 3) := by
  have hW : WF demoState := ⟨by decide, by decide, by decide⟩
  have hN : ([(⟨TicketTier.GA, 3⟩ : TicketSelection), ⟨TicketTier.VIP, 2⟩].map
      (fun s => s.tier)).Nodup := by decide
  have H := createOrUpdateHolds_partial_application demoState 0 "A" "c"
    [⟨TicketTier.GA, 3⟩, ⟨TicketTier.VIP, 2⟩] hW hN
    (by decide) (by decide)
  refine ⟨⟨hW, hN⟩, H.1, by decide, by decide, ?_⟩
  obtain ⟨r, hr, hq, _⟩ := (H.2.2.2 ⟨TicketTier.GA, 3⟩ (by decide)).2.1 (by decide)
  exact ⟨r, hr, hq⟩

/-- When every selection already has exactly the state the loop would
produce (no row for zero-quantity tiers; a row with the requested quantity
and the same fresh timestamps for granted tiers), the loop leaves the state
literally unchanged and reports the same unavailable selections. -/
theorem processSelections_identity (sess c : String) (now exp : Nat)
    (sels : List TicketSelection) :
    ∀ (st : St), WF st →
      (∀ s ∈ sels,
        (s.quantity = 0 → st.holds.find? (holdMatches sess c s.tier) = none)
        ∧ (classify sess c now st s = SelOutcome.granted →
          ∃ r, st.holds.find? (holdMatches sess c s.tier) = some r
            ∧ r.quantity = s.quantity ∧ r.expiresAt = exp ∧ r.lastActivityAt = now)) →
      (processSelections sess c now exp st sels).1 = st
      ∧ (processSelections sess c now exp st sels).2.2 =
          sels.filter (fun s => decide (classify sess c now st s = SelOutcome.skipped)) := by
  induction sels with
  | nil =>
    intro st _ _
    exact ⟨rfl, rfl⟩
  | cons s rest ih =>
    intro st hWF hcond
    have hstep1 : (stepSel sess c now exp st s).1 = st := by
      cases hcls : classify sess c now st s with
      | removed =>
        have hq0 := (classify_removed_iff sess c now st s).mp hcls
        have hnone := (hcond s (List.mem_cons_self s rest)).1 hq0
        rw [stepSel_of_removed sess c now exp st s hq0]
        have hkeep : st.holds.filter (fun h => !holdMatches sess c s.tier h) = st.holds := by
          apply filter_eq_self_of
          intro x hx
          simpa using List.find?_eq_none.mp hnone x hx
        show ({ st with holds := st.holds.filter (fun h => !holdMatches sess c s.tier h) }
          : St) = st
        rw [hkeep]
      | skipped =>
        rw [stepSel_of_skipped sess c now exp st s hcls]
      | granted =>
        obtain ⟨hq0n, hG⟩ := (classify_granted_iff sess c now st s).mp hcls
        obtain ⟨r, hfr, hq, he, hla⟩ := (hcond s (List.mem_cons_self s rest)).2 hcls
        rw [stepSel, if_neg hq0n, if_neg hG]
        simp only [hfr]
        have hupd : refreshHold s.quantity exp now r = r := by
          cases r with
          | mk id sid cid tier qty cAt eAt lAt =>
            simp only [Hold.mk.injEq] at hq he hla ⊢
            simp [refreshHold, hq, he, hla]
        rw [hupd]
        have hmapid : st.holds.map (fun h => if h.id = r.id then r else h) = st.holds := by
          apply map_eq_self_of
          intro x hx
          by_cases hxe : x.id = r.id
          · rw [if_pos hxe, nodup_map_inj hWF.1 hx (List.mem_of_find?_eq_some hfr) hxe]
          · rw [if_neg hxe]
        show ({ st with holds := st.holds.map (fun h => if h.id = r.id then r else h) }
          : St) = st
        rw [hmapid]
    have hstep2 : (stepSel sess c now exp st s).2.2 =
        if classify sess c now st s = SelOutcome.skipped then some s else none := by
      cases hcls : classify sess c now st s with
      | removed =>
        rw [stepSel_of_removed sess c now exp st s
          ((classify_removed_iff sess c now st s).mp hcls), if_neg (by simp)]
      | skipped =>
        rw [stepSel_of_skipped sess c now exp st s hcls, if_pos rfl]
      | granted =>
        obtain ⟨r, h21, h22, _⟩ := stepSel_granted_spec sess c now exp st s hWF hcls
        rw [h22, if_neg (by simp)]
    have IH := ih st hWF (fun s' hs' => hcond s' (List.mem_cons_of_mem s hs'))
    rw [processSelections_cons, hstep1]
    dsimp only
    refine ⟨IH.1, ?_⟩
    rw [hstep2, IH.2, List.filter_cons]
    by_cases hcs : classify sess c now st s = SelOutcome.skipped
    · rw [if_pos hcs, if_pos (by simp [hcs])]
      rfl
    · rw [if_neg hcs, if_neg (by simp [hcs])]
      rfl

/-! ### Claim C8: createOrUpdateHolds is idempotent -/

/-- C8: repeating a createOrUpdateHolds call (distinct tiers, well-formed
state) at the same instant leaves the hold store in literally the same end
state as the single call — the second call's updates rewrite each granted
row with the same quantity and the same refreshed timestamps — and the
second call reports the same success flag and the same unavailable list, so
it can never be newly rejected for capacity: every granted tier re-enters
with delta 0 and undergoes no availability check. -/
theorem createOrUpdateHolds_idempotent
    (st : St) (now : Nat) (sess c : String) (sels : List TicketSelection)
    (hWF : WF st) (hnd : (sels.map (fun s => s.tier)).Nodup) :
    (createOrUpdateHolds (createOrUpdateHolds st now sess c sels).1 now sess c sels).1 =
      (createOrUpdateHolds st now sess c sels).1
    ∧ (createOrUpdateHolds
          (createOrUpdateHolds st now sess c sels).1 now sess c sels).2.success =
        (createOrUpdateHolds st now sess c sels).2.success
    ∧ (createOrUpdateHolds
          (createOrUpdateHolds st now sess c sels).1 now sess c sels).2.unavailable =
        (createOrUpdateHolds st now sess c sels).2.unavailable := by
  by_cases hv1 : sels.any (fun s => decide (MAX_TICKETS_PER_TIER < s.quantity)) = true
  · have h1 : ∀ stX : St, createOrUpdateHolds stX now sess c sels = (stX, ⟨false, [], []⟩) := by
      intro stX
      rw [createOrUpdateHolds, if_pos hv1]
    simp only [h1]
    exact ⟨trivial, trivial, trivial⟩
  · by_cases hv2 : MAX_TICKETS_PER_ORDER < (sels.map (fun s => s.quantity)).sum
    · have h1 : ∀ stX : St, createOrUpdateHolds stX now sess c sels =
          (stX, ⟨false, [], []⟩) := by
        intro stX
        rw [createOrUpdateHolds, if_neg hv1, if_pos hv2]
      simp only [h1]
      exact ⟨trivial, trivial, trivial⟩
    · have hred := fun stX : St =>
        createOrUpdateHolds_eq_of_caps stX now sess c sels hv1 hv2
      obtain ⟨SP1, SP2, SP3, SP4, SP5, SP6⟩ :=
        processSelections_spec sess c now (now + HOLD_CONFIG.holdDurationMs) sels st hWF hnd
      have hcls_inv : ∀ s' ∈ sels,
          classify sess c now
              (processSelections sess c now (now + HOLD_CONFIG.holdDurationMs) st sels).1 s' =
            classify sess c now st s' := by
        intro s' hs'
        cases hcs : classify sess c now st s' with
        | removed =>
          have hq0 := (classify_removed_iff sess c now st s').mp hcs
          exact (classify_removed_iff sess c now _ s').mpr hq0
        | granted =>
          have hq0n := ((classify_granted_iff sess c now st s').mp hcs).1
          obtain ⟨r, hfindr, hq, _, _, _, _, _⟩ := (SP6 s' hs').2.1 hcs
          refine (classify_granted_iff sess c now _ s').mpr ⟨hq0n, ?_⟩
          intro hG
          have hdelta := hG.1
          rw [holdDelta, currentHeldQty, hfindr] at hdelta
          simp only [Option.map_some', Option.getD_some, hq] at hdelta
          omega
        | skipped =>
          obtain ⟨hfindeq, hsumeq⟩ := (SP6 s' hs').2.2 hcs
          rw [classify_congr sess c now st _ s' hfindeq (hsumeq now) SP2]
          exact hcs
      have hcond : ∀ s' ∈ sels,
          (s'.quantity = 0 →
            (processSelections sess c now (now + HOLD_CONFIG.holdDurationMs)
              st sels).1.holds.find? (holdMatches sess c s'.tier) = none)
          ∧ (classify sess c now
                (processSelections sess c now (now + HOLD_CONFIG.holdDurationMs)
                  st sels).1 s' = SelOutcome.granted →
            ∃ r, (processSelections sess c now (now + HOLD_CONFIG.holdDurationMs)
                st sels).1.holds.find? (holdMatches sess c s'.tier) = some r
              ∧ r.quantity = s'.quantity ∧ r.expiresAt = now + HOLD_CONFIG.holdDurationMs
              ∧ r.lastActivityAt = now) := by
        intro s' hs'
        refine ⟨(SP6 s' hs').1, ?_⟩
        intro hg1
        rw [hcls_inv s' hs'] at hg1
        obtain ⟨r, hfindr, hq, he, hla, _, _, _⟩ := (SP6 s' hs').2.1 hg1
        exact ⟨r, hfindr, hq, he, hla⟩
      obtain ⟨ID1, ID2⟩ := processSelections_identity sess c now
        (now + HOLD_CONFIG.holdDurationMs) sels
        (processSelections sess c now (now + HOLD_CONFIG.holdDurationMs) st sels).1
        SP1 hcond
      have husfilter : (processSelections sess c now (now + HOLD_CONFIG.holdDurationMs)
            (processSelections sess c now (now + HOLD_CONFIG.holdDurationMs) st sels).1
            sels).2.2 =
          (processSelections sess c now (now + HOLD_CONFIG.holdDurationMs) st sels).2.2 := by
        rw [ID2, SP3]
        apply filter_congr_mem
        intro x hx
        rw [hcls_inv x hx]
      simp only [hred]
      exact ⟨ID1, by rw [husfilter], husfilter⟩

/-- Concrete instantiation: reserving 2 GA twice in the seeded state gives
the same state as once, with the same success flag and unavailable list. -/
theorem createOrUpdateHolds_idempotent_witness :
    (WF demoState
      ∧ (([(⟨TicketTier.GA, 2⟩ : TicketSelection)]).map (fun s => s.tier)).Nodup)
    ∧ (createOrUpdateHolds
        (createOrUpdateHolds demoState 0 "A" "c" [⟨TicketTier.GA, 2⟩]).1
        0 "A" "c" [⟨TicketTier.GA, 2⟩]).1 =
      (createOrUpdateHolds demoState 0 "A" "c" [⟨TicketTier.GA, 2⟩]).1
    ∧ (createOrUpdateHolds
        (createOrUpdateHolds demoState 0 "A" "c" [⟨TicketTier.GA, 2⟩]).1
        0 "A" "c" [⟨TicketTier.GA, 2⟩]).2.success =
      (createOrUpdateHolds demoState 0 "A" "c" [⟨TicketTier.GA, 2⟩]).2.success
    ∧ (createOrUpdateHolds
        (createOrUpdateHolds demoState 0 "A" "c" [⟨TicketTier.GA, 2⟩]).1
        0 "A" "c" [⟨TicketTier.GA, 2⟩]).2.unavailable =
      (createOrUpdateHolds demoState 0 "A" "c" [⟨TicketTier.GA, 2⟩]).2.unavailable := by
  have hW : WF demoState := ⟨by decide, by decide, by decide⟩
  have hN : (([(⟨TicketTier.GA, 2⟩ : TicketSelection)]).map (fun s => s.tier)).Nodup := by
    decide
  have H := createOrUpdateHolds_idempotent demoState 0 "A" "c" [⟨TicketTier.GA, 2⟩] hW hN
  exact ⟨⟨hW, hN⟩, H.1, H.2.1, H.2.2⟩
